import Mathlib

/-!
Formal model of a baseball Monte Carlo season-simulation engine.

The Python source is embedded shallowly: every module-level function is
translated into a Lean definition over exact rational arithmetic, the
`numpy.random.RandomState` stream is modelled as an explicit draw stream
`d : ℕ → ℚ` together with a cursor `k : ℕ` that each sampling call advances,
and Python exceptions are modelled with `Except String`.  Python dataclasses
become Lean structures; `None`-able fields become `Option`.
-/

set_option maxHeartbeats 1000000
set_option maxRecDepth 4000

/-- The seven plate-appearance outcome probabilities
(`Player.pa_probs` in `src/models/player.py`, keys
OUT / STRIKEOUT / WALK / SINGLE / DOUBLE / TRIPLE / HR). -/
structure PAProbs where
  out : ℚ
  strikeout : ℚ
  walk : ℚ
  single : ℚ
  double : ℚ
  triple : ℚ
  hr : ℚ
deriving DecidableEq, Repr

/-- The four hit-type probabilities (`hit_dist`, keys 1B / 2B / 3B / HR). -/
structure HitDist where
  h1B : ℚ
  h2B : ℚ
  h3B : ℚ
  hHR : ℚ
deriving DecidableEq, Repr

/-- A fielding position (`src/models/position.py`): code, abbreviation,
name and category. -/
structure FieldingPosition where
  code : ℕ
  abbr : String
  posName : String
  category : String
deriving DecidableEq, Repr

/-- `Player` from `src/models/player.py`: a dataclass with slash-line rates,
optional raw counts, optional stolen-base data and the calibrated
distributions.  Python dataclasses compare by field value, so value equality
here matches `==` in the source. -/
structure Player where
  name : String
  ba : ℚ
  obp : ℚ
  slg : ℚ
  iso : ℚ
  pa : ℕ
  singles : Option ℕ := none
  doubles : Option ℕ := none
  triples : Option ℕ := none
  hr : Option ℕ := none
  sb : Option ℕ := none
  cs : Option ℕ := none
  position : Option FieldingPosition := none
  paProbs : Option PAProbs := none
  hitDist : Option HitDist := none
deriving DecidableEq, Repr

/-- The configuration constants of `config.py` that the engine reads. -/
structure Config where
  enableStolenBases : Bool
  enableSacrificeFlies : Bool
  enableProbabilisticBaserunning : Bool
  enableErrorsWildPitches : Bool
  minSbAttemptsForRate : ℕ
  sbAttemptScale : ℚ
  flyoutPercentage : ℚ
  defaultKPct : ℚ
  aggressionSingle1stTo3rd : ℚ
  aggressionDouble1stScores : ℚ
  aggressionDouble2ndScores : ℚ
  isoThresholdLow : ℚ
  isoThresholdMedium : ℚ
  hitDistSinglesHitter : HitDist
  hitDistBalanced : HitDist
  hitDistPowerHitter : HitDist
  leagueAvgHitDistribution : HitDist
  errorRatePerPA : ℚ
deriving DecidableEq, Repr

/-- The values assigned in `config.py`. -/
def defaultConfig : Config where
  enableStolenBases := true
  enableSacrificeFlies := true
  enableProbabilisticBaserunning := true
  enableErrorsWildPitches := true
  minSbAttemptsForRate := 5
  sbAttemptScale := 1
  flyoutPercentage := 0.35
  defaultKPct := 0.220
  aggressionSingle1stTo3rd := 0.28
  aggressionDouble1stScores := 0.60
  aggressionDouble2ndScores := 0.98
  isoThresholdLow := 0.100
  isoThresholdMedium := 0.200
  hitDistSinglesHitter := ⟨0.80, 0.15, 0.02, 0.03⟩
  hitDistBalanced := ⟨0.70, 0.20, 0.02, 0.08⟩
  hitDistPowerHitter := ⟨0.60, 0.20, 0.01, 0.19⟩
  leagueAvgHitDistribution := ⟨0.75, 0.18, 0.02, 0.05⟩
  errorRatePerPA := 0.015

/-- Equality of `Except` results is decidable when both payloads are, letting
concrete engine runs be checked by evaluation. -/
instance {α β : Type} [DecidableEq α] [DecidableEq β] : DecidableEq (Except α β)
  | Except.error a, Except.error b =>
    if h : a = b then isTrue (h ▸ rfl)
    else isFalse (fun hh => h (Except.error.inj hh))
  | Except.error _, Except.ok _ => isFalse (fun hh => Except.noConfusion hh)
  | Except.ok _, Except.error _ => isFalse (fun hh => Except.noConfusion hh)
  | Except.ok a, Except.ok b =>
    if h : a = b then isTrue (h ▸ rfl)
    else isFalse (fun hh => h (Except.ok.inj hh))

/-- `BasesState` from `src/models/baserunning.py`: a 3-slot mapping from base
to the occupying `Player` or `None`. -/
structure Bases where
  first : Option Player
  second : Option Player
  third : Option Player
deriving DecidableEq, Repr

/-- `create_empty_bases` from `src/models/baserunning.py`. -/
def createEmptyBases : Bases := ⟨none, none, none⟩

/-- `count_runners_on_base` from `src/models/baserunning.py`. -/
def countRunnersOnBase (b : Bases) : ℕ :=
  (if b.first.isSome then 1 else 0) + (if b.second.isSome then 1 else 0) +
    (if b.third.isSome then 1 else 0)

/-- The second half of the `DOUBLE` branch of `advance_runners`: the runner
from first either scores (probabilistic, one draw) or stops at third —
overwriting any runner already held at third — and the batter takes second.
`runs1`/`third1`/`k1` are the accumulator, the third-base slot and the draw
cursor after the second-base runner was resolved. -/
def doubleFirstRunner (cfg : Config) (firstBefore : Option Player)
    (batter : Player) (runs1 : ℕ) (third1 : Option Player) (d : ℕ → ℚ)
    (k1 : ℕ) : Except String (Bases × ℕ × ℕ) :=
  match firstBefore with
  | some r1 =>
    if cfg.enableProbabilisticBaserunning then
      if d k1 < cfg.aggressionDouble1stScores then
        .ok (⟨none, some batter, third1⟩, runs1 + 1, k1 + 1)
      else .ok (⟨none, some batter, some r1⟩, runs1, k1 + 1)
    else .ok (⟨none, some batter, some r1⟩, runs1, k1)
  | none => .ok (⟨none, some batter, third1⟩, runs1, k1)

/-- `advance_runners` from `src/models/baserunning.py` (lines 28-166).
Returns the new bases, the runs scored on the play and the advanced draw
cursor; the `raise ValueError` on an unknown hit type becomes `.error`.
Draws are consumed exactly where the source calls `rng.random()` (only
inside `use_probabilistic` short-circuit conjunctions). -/
def advanceRunners (cfg : Config) (hitType : String) (basesBefore : Bases)
    (batter : Player) (d : ℕ → ℚ) (k : ℕ) : Except String (Bases × ℕ × ℕ) :=
  let useProb := cfg.enableProbabilisticBaserunning
  if hitType = "OUT" then
    .ok (basesBefore, 0, k)
  else if hitType = "WALK" then
    let runsScored : ℕ :=
      if basesBefore.first.isSome ∧ basesBefore.second.isSome ∧ basesBefore.third.isSome
      then 1 else 0
    let newThird : Option Player :=
      if basesBefore.second.isSome ∧ basesBefore.first.isSome then basesBefore.second
      else if basesBefore.third.isSome then basesBefore.third
      else none
    let newSecond : Option Player :=
      if basesBefore.first.isSome then basesBefore.first else none
    .ok (⟨some batter, newSecond, newThird⟩, runsScored, k)
  else if hitType = "SINGLE" then
    let runsScored : ℕ := if basesBefore.third.isSome then 1 else 0
    let third0 : Option Player := basesBefore.second
    match basesBefore.first with
    | some r1 =>
      if useProb then
        if d k < cfg.aggressionSingle1stTo3rd then
          -- aggressive: 1st to 3rd, only if 3rd is open
          if third0 = none then .ok (⟨some batter, none, some r1⟩, runsScored, k + 1)
          else .ok (⟨some batter, some r1, third0⟩, runsScored, k + 1)
        else .ok (⟨some batter, some r1, third0⟩, runsScored, k + 1)
      else .ok (⟨some batter, some r1, third0⟩, runsScored, k)
    | none => .ok (⟨some batter, none, third0⟩, runsScored, k)
  else if hitType = "DOUBLE" then
    let runs0 : ℕ := if basesBefore.third.isSome then 1 else 0
    -- runner from 2nd: almost always scores; then the runner from 1st
    match basesBefore.second with
    | some r2 =>
      if useProb then
        if d k < cfg.aggressionDouble2ndScores then
          doubleFirstRunner cfg basesBefore.first batter (runs0 + 1) none d (k + 1)
        else doubleFirstRunner cfg basesBefore.first batter runs0 (some r2) d (k + 1)
      else doubleFirstRunner cfg basesBefore.first batter (runs0 + 1) none d k
    | none => doubleFirstRunner cfg basesBefore.first batter runs0 none d k
  else if hitType = "TRIPLE" then
    let runsScored : ℕ :=
      (if basesBefore.first.isSome then 1 else 0) +
        (if basesBefore.second.isSome then 1 else 0) +
        (if basesBefore.third.isSome then 1 else 0)
    .ok (⟨none, none, some batter⟩, runsScored, k)
  else if hitType = "HR" then
    let runsScored : ℕ :=
      1 + ((if basesBefore.first.isSome then 1 else 0) +
        (if basesBefore.second.isSome then 1 else 0) +
        (if basesBefore.third.isSome then 1 else 0))
    .ok (⟨none, none, none⟩, runsScored, k)
  else
    .error ("Unknown hit type: " ++ hitType)

/-- No player occupies two base slots at once (the `BaseState` invariant of
the spec).  The complementary clause of the invariant, that a slot is either
genuinely empty or holds a real player, is enforced in this embedding by the
`Option Player` type of each slot. -/
def Bases.noDupOcc (b : Bases) : Prop :=
  (b.first.isSome → b.first ≠ b.second ∧ b.first ≠ b.third) ∧
    (b.second.isSome → b.second ≠ b.third)

/-- The batter is not already standing on a base. -/
def Bases.notOn (b : Bases) (p : Player) : Prop :=
  b.first ≠ some p ∧ b.second ≠ some p ∧ b.third ≠ some p

instance (b : Bases) : Decidable b.noDupOcc := by
  unfold Bases.noDupOcc; infer_instance

instance (b : Bases) (p : Player) : Decidable (b.notOn p) := by
  unfold Bases.notOn; infer_instance

/-- The `Player("temp", ba, obp, slg, iso, 0)` object that
`decompose_slash_line` builds when no player is supplied. -/
def tempPlayer (ba obp slg iso : ℚ) : Player :=
  { name := "temp", ba := ba, obp := obp, slg := slg, iso := iso, pa := 0 }

/-- `calculate_hit_distribution` from `src/models/probability.py`
(lines 11-103), with the source's literal default arguments
(`min_hits_threshold = 100`, `prior_weight = 100`) and the league-average
fallback taken from the configuration. -/
def calculateHitDistribution (cfg : Config) (p : Player) : HitDist :=
  let leagueAvgDist := cfg.leagueAvgHitDistribution
  let minHitsThreshold : ℕ := 100
  match p.singles, p.doubles, p.triples, p.hr with
  | some s1, some d2, some t3, some h4 =>
    let totalHits := s1 + d2 + t3 + h4
    if totalHits = 0 then leagueAvgDist
    else
      let actualDist : HitDist :=
        ⟨(s1 : ℚ) / totalHits, (d2 : ℚ) / totalHits, (t3 : ℚ) / totalHits,
          (h4 : ℚ) / totalHits⟩
      if totalHits < minHitsThreshold then
        let priorWeight : ℚ := 100
        let playerWeight : ℚ := totalHits
        ⟨(leagueAvgDist.h1B * priorWeight + actualDist.h1B * playerWeight) /
            (priorWeight + playerWeight),
          (leagueAvgDist.h2B * priorWeight + actualDist.h2B * playerWeight) /
            (priorWeight + playerWeight),
          (leagueAvgDist.h3B * priorWeight + actualDist.h3B * playerWeight) /
            (priorWeight + playerWeight),
          (leagueAvgDist.hHR * priorWeight + actualDist.hHR * playerWeight) /
            (priorWeight + playerWeight)⟩
      else actualDist
  | _, _, _, _ =>
    -- no count data: ISO-based interpolation among the three archetypes
    let iso := p.iso
    let isoLow := cfg.isoThresholdLow
    let isoMed := cfg.isoThresholdMedium
    let singlesProfile := cfg.hitDistSinglesHitter
    let balancedProfile := cfg.hitDistBalanced
    let powerProfile := cfg.hitDistPowerHitter
    if iso < isoLow then singlesProfile
    else if iso < isoMed then
      let w := (iso - isoLow) / (isoMed - isoLow)
      ⟨singlesProfile.h1B * (1 - w) + balancedProfile.h1B * w,
        singlesProfile.h2B * (1 - w) + balancedProfile.h2B * w,
        singlesProfile.h3B * (1 - w) + balancedProfile.h3B * w,
        singlesProfile.hHR * (1 - w) + balancedProfile.hHR * w⟩
    else
      let w := min 1 ((iso - isoMed) / 0.200)
      ⟨balancedProfile.h1B * (1 - w) + powerProfile.h1B * w,
        balancedProfile.h2B * (1 - w) + powerProfile.h2B * w,
        balancedProfile.h3B * (1 - w) + powerProfile.h3B * w,
        balancedProfile.hHR * (1 - w) + powerProfile.hHR * w⟩

/-- The values of a `pa_probs` dictionary, in the source's key order. -/
def PAProbs.toList (pr : PAProbs) : List ℚ :=
  [pr.out, pr.strikeout, pr.walk, pr.single, pr.double, pr.triple, pr.hr]

/-- The values of a `hit_dist` dictionary, in the source's key order. -/
def HitDist.toList (h : HitDist) : List ℚ :=
  [h.h1B, h.h2B, h.h3B, h.hHR]

/-- Sum of the four hit-type probabilities. -/
def HitDist.total (h : HitDist) : ℚ := h.h1B + h.h2B + h.h3B + h.hHR

/-- `validate_probabilities` from `src/models/probability.py`: every value
non-negative and the total within `1e-6` of `1.0`; a violation raises. -/
def validProbList (l : List ℚ) : Prop :=
  (∀ x ∈ l, ¬x < 0) ∧ |l.sum - 1| ≤ 1 / 1000000

instance (l : List ℚ) : Decidable (validProbList l) := by
  unfold validProbList; infer_instance

/-- `decompose_slash_line` from `src/models/probability.py` (lines 105-171).
The two `validate_probabilities` calls become the two guards; a failed
validation raises, i.e. returns `.error`. -/
def decomposeSlashLine (cfg : Config) (ba obp slg : ℚ) (player : Option Player)
    (kPct : Option ℚ) : Except String (PAProbs × HitDist) :=
  let iso := slg - ba
  let hitDist :=
    match player with
    | some p => calculateHitDistribution cfg p
    | none => calculateHitDistribution cfg (tempPlayer ba obp slg iso)
  let pWalk := obp - ba
  let pHit := ba
  let pTotalOuts := 1 - obp
  let split : ℚ × ℚ :=
    match kPct with
    | some kp => if pTotalOuts - kp < 0 then (pTotalOuts, 0) else (kp, pTotalOuts - kp)
    | none =>
      if pTotalOuts - cfg.defaultKPct < 0 then (pTotalOuts, 0)
      else (cfg.defaultKPct, pTotalOuts - cfg.defaultKPct)
  let pStrikeout := split.1
  let pOut := split.2
  let paProbs : PAProbs :=
    ⟨pOut, pStrikeout, pWalk, pHit * hitDist.h1B, pHit * hitDist.h2B,
      pHit * hitDist.h3B, pHit * hitDist.hHR⟩
  if validProbList paProbs.toList then
    if validProbList hitDist.toList then .ok (paProbs, hitDist)
    else .error "hit_dist failed validation"
  else .error "pa_probs failed validation"

/-- The fixed outcome enumeration of `PAOutcomeGenerator.generate_outcome`
paired with each outcome's probability. -/
def outcomeEnumeration (pr : PAProbs) : List (String × ℚ) :=
  [("OUT", pr.out), ("STRIKEOUT", pr.strikeout), ("WALK", pr.walk),
    ("SINGLE", pr.single), ("DOUBLE", pr.double), ("TRIPLE", pr.triple),
    ("HR", pr.hr)]

/-- The cumulative-probability walk of `generate_outcome`: return the first
outcome whose running total exceeds the draw, else fall through to `'OUT'`. -/
def findOutcomeFromCum (draw : ℚ) : ℚ → List (String × ℚ) → String
  | _, [] => "OUT"
  | acc, (nm, p) :: rest =>
    if draw < acc + p then nm else findOutcomeFromCum draw (acc + p) rest

/-- Total cumulative probability mass of a `pa_probs` dictionary. -/
def PAProbs.totalMass (pr : PAProbs) : ℚ :=
  pr.out + pr.strikeout + pr.walk + pr.single + pr.double + pr.triple + pr.hr

/-- `PAOutcomeGenerator.generate_outcome` from `src/engine/pa_generator.py`
(lines 19-46): raises when the player has no calculated probabilities,
otherwise consumes one uniform draw and walks the cumulative distribution. -/
def generateOutcome (p : Player) (d : ℕ → ℚ) (k : ℕ) :
    Except String (String × ℕ) :=
  match p.paProbs with
  | none => .error ("Player " ++ p.name ++ " has no PA probabilities calculated")
  | some pr => .ok (findOutcomeFromCum (d k) 0 (outcomeEnumeration pr), k + 1)

/-- `calculate_sb_rate` from `src/models/stolen_bases.py`: per-player attempt
and success rates, with the team-average fallbacks of the source. -/
def calculateSbRate (cfg : Config) (p : Player) (teamAvgRate : ℚ) : ℚ × ℚ :=
  match p.sb, p.cs with
  | some sbN, some csN =>
    let totalAttempts := sbN + csN
    if totalAttempts < cfg.minSbAttemptsForRate then
      let successRate : ℚ :=
        if 0 < totalAttempts then (sbN : ℚ) / totalAttempts else 0.75
      (teamAvgRate, successRate)
    else
      let timesOnBase : ℚ := p.ba * p.pa + (p.obp - p.ba) * p.pa
      let attemptRate : ℚ :=
        if 0 < timesOnBase then (totalAttempts : ℚ) / timesOnBase else teamAvgRate
      let successRate : ℚ :=
        if 0 < totalAttempts then (sbN : ℚ) / totalAttempts else 0.75
      (attemptRate * cfg.sbAttemptScale, successRate)
  | _, _ => (teamAvgRate, 0.75)

/-- `should_attempt_steal` from `src/models/stolen_bases.py`: no attempt with
two outs or from third; otherwise one draw against the attempt rate. -/
def shouldAttemptSteal (cfg : Config) (runner : Player) (base : String)
    (outs : ℕ) (d : ℕ → ℚ) (k : ℕ) (teamAvgRate : ℚ) : Bool × ℕ :=
  if 2 ≤ outs then (false, k)
  else if base ≠ "first" ∧ base ≠ "second" then (false, k)
  else
    let attemptRate := (calculateSbRate cfg runner teamAvgRate).1
    (decide (d k < attemptRate), k + 1)

/-- `attempt_stolen_base` from `src/models/stolen_bases.py`: one draw against
the success rate; success moves the runner up one base, failure removes the
runner.  Returns (bases, successful, caught, cursor). -/
def attemptStolenBase (cfg : Config) (runner : Player) (fromBase : String)
    (basesBefore : Bases) (d : ℕ → ℚ) (k : ℕ) (teamAvgRate : ℚ) :
    Bases × Bool × Bool × ℕ :=
  let successRate := (calculateSbRate cfg runner teamAvgRate).2
  if d k < successRate then
    if fromBase = "first" then
      ({ basesBefore with first := none, second := some runner }, true, false, k + 1)
    else if fromBase = "second" then
      ({ basesBefore with second := none, third := some runner }, true, false, k + 1)
    else (basesBefore, true, false, k + 1)
  else
    if fromBase = "first" then
      ({ basesBefore with first := none }, false, true, k + 1)
    else if fromBase = "second" then
      ({ basesBefore with second := none }, false, true, k + 1)
    else (basesBefore, false, true, k + 1)

/-- The first-base half of `check_steal_opportunities`, reached when the
second-base check does not attempt a steal. -/
def checkStealFromFirst (cfg : Config) (bases : Bases) (outs : ℕ) (d : ℕ → ℚ)
    (k : ℕ) (teamAvgRate : ℚ) : Bases × ℕ × ℕ :=
  match bases.first, bases.second with
  | some runner, none =>
    let a := shouldAttemptSteal cfg runner "first" outs d k teamAvgRate
    if a.1 then
      let r := attemptStolenBase cfg runner "first" bases d a.2 teamAvgRate
      (r.1, if r.2.2.1 then 1 else 0, r.2.2.2)
    else (bases, 0, a.2)
  | _, _ => (bases, 0, k)

/-- `check_steal_opportunities` from `src/models/stolen_bases.py`
(lines 136-183): at most one steal attempt per between-PA period, second base
checked before first.  Returns (bases, additional outs, cursor). -/
def checkStealOpportunities (cfg : Config) (bases : Bases) (outs : ℕ)
    (d : ℕ → ℚ) (k : ℕ) (teamAvgRate : ℚ) : Bases × ℕ × ℕ :=
  if ¬cfg.enableStolenBases then (bases, 0, k)
  else
    match bases.second, bases.third with
    | some runner, none =>
      let a := shouldAttemptSteal cfg runner "second" outs d k teamAvgRate
      if a.1 then
        let r := attemptStolenBase cfg runner "second" bases d a.2 teamAvgRate
        (r.1, if r.2.2.1 then 1 else 0, r.2.2.2)
      else checkStealFromFirst cfg bases outs d a.2 teamAvgRate
    | _, _ => checkStealFromFirst cfg bases outs d k teamAvgRate

/-- `check_sacrifice_fly` from `src/models/sacrifice_fly.py` (lines 13-56):
needs the feature enabled, fewer than two outs and a runner on third, then
one draw against the flyout fraction.  Returns
(bases, runs scored, was sac fly, cursor). -/
def checkSacrificeFly (cfg : Config) (bases : Bases) (outs : ℕ) (d : ℕ → ℚ)
    (k : ℕ) : Bases × ℕ × Bool × ℕ :=
  if ¬cfg.enableSacrificeFlies then (bases, 0, false, k)
  else if 2 ≤ outs then (bases, 0, false, k)
  else
    match bases.third with
    | none => (bases, 0, false, k)
    | some _ =>
      if d k < cfg.flyoutPercentage then
        ({ bases with third := none }, 1, true, k + 1)
      else (bases, 0, false, k + 1)

/-- `check_error_advances_runner` from `src/models/errors.py`: one draw per
PA; on an error all runners advance one base (third scores) and the batter
stays at the plate.  Returns (bases, runs scored, cursor). -/
def checkErrorAdvancesRunner (cfg : Config) (bases : Bases) (d : ℕ → ℚ)
    (k : ℕ) : Bases × ℕ × ℕ :=
  if ¬cfg.enableErrorsWildPitches then (bases, 0, k)
  else if cfg.errorRatePerPA < d k then (bases, 0, k + 1)
  else
    let runsScored : ℕ := if bases.third.isSome then 1 else 0
    (⟨none, bases.first, bases.second⟩, runsScored, k + 1)

/-- The mutable locals of `simulate_half_inning` (`src/engine/inning.py`)
together with the draw cursor. -/
structure HIState where
  outs : ℕ
  bases : Bases
  runs : ℕ
  batterIdx : ℕ
  paCount : ℕ
  hits : ℕ
  walks : ℕ
  sbAttempts : ℕ
  sbSuccess : ℕ
  sacFlies : ℕ
  k : ℕ
deriving DecidableEq, Repr

/-- The stolen-base block at the top of the `simulate_half_inning` loop
(`src/engine/inning.py` lines 53-71): run the steal check, track attempts by
comparing the bases dictionaries, add any caught-stealing out. -/
def stealPhase (cfg : Config) (d : ℕ → ℚ) (s : HIState) : HIState :=
  if cfg.enableStolenBases then
    let r := checkStealOpportunities cfg s.bases s.outs d s.k (1 / 20)
    let basesAfterSb := r.1
    let sbOuts := r.2.1
    let k1 := r.2.2
    let att := if basesAfterSb ≠ s.bases then s.sbAttempts + 1 else s.sbAttempts
    let suc :=
      if basesAfterSb ≠ s.bases ∧ sbOuts = 0 then s.sbSuccess + 1 else s.sbSuccess
    { s with bases := basesAfterSb, outs := s.outs + sbOuts,
             sbAttempts := att, sbSuccess := suc, k := k1 }
  else s

/-- The error/wild-pitch block of the `simulate_half_inning` loop
(`src/engine/inning.py` lines 74-80).  The draw is consumed inside the check
whether or not an error occurs. -/
def errorPhase (cfg : Config) (d : ℕ → ℚ) (s : HIState) : HIState :=
  if cfg.enableErrorsWildPitches then
    let r := checkErrorAdvancesRunner cfg s.bases d s.k
    let basesAfterError := r.1
    let errorRuns := r.2.1
    let k1 := r.2.2
    if 0 < errorRuns ∨ basesAfterError ≠ s.bases then
      { s with runs := s.runs + errorRuns, bases := basesAfterError, k := k1 }
    else { s with k := k1 }
  else s

/-- The outcome-handling block of the `simulate_half_inning` loop
(`src/engine/inning.py` lines 88-110): on `'OUT'` run the sacrifice-fly check
against the pre-increment out count and then increment the outs; on any other
outcome advance the runners (which raises on an unknown hit type such as
`'STRIKEOUT'`) and accumulate runs, walks and hits. -/
def handlePAOutcome (cfg : Config) (batter : Player) (outcome : String)
    (d : ℕ → ℚ) (s : HIState) : Except String HIState :=
  if outcome = "OUT" then
    let r := checkSacrificeFly cfg s.bases s.outs d s.k
    let basesAfterSf := r.1
    let sfRuns := r.2.1
    let isSf := r.2.2.1
    let k1 := r.2.2.2
    let s1 :=
      if isSf then
        { s with sacFlies := s.sacFlies + 1, runs := s.runs + sfRuns,
                 bases := basesAfterSf, k := k1 }
      else { s with k := k1 }
    .ok { s1 with outs := s1.outs + 1 }
  else
    match advanceRunners cfg outcome s.bases batter d s.k with
    | .error e => .error e
    | .ok (basesAfter, runsScored, k1) =>
      let s1 := { s with bases := basesAfter, runs := s.runs + runsScored, k := k1 }
      if outcome = "WALK" then .ok { s1 with walks := s1.walks + 1 }
      else .ok { s1 with hits := s1.hits + 1 }

/-- The plate-appearance part of one loop iteration: fetch the current batter
(Python would raise an `IndexError` on a bad index), sample the outcome,
handle it, and advance the batter index modulo 9. -/
def paPhase (cfg : Config) (lineup : List Player) (d : ℕ → ℚ)
    (s : HIState) : Except String HIState :=
  match lineup[s.batterIdx]? with
  | none => .error "batter index out of range"
  | some batter =>
    match generateOutcome batter d s.k with
    | .error e => .error e
    | .ok (outcome, k1) =>
      let s1 := { s with paCount := s.paCount + 1, k := k1 }
      match handlePAOutcome cfg batter outcome d s1 with
      | .error e => .error e
      | .ok s2 => .ok { s2 with batterIdx := (s2.batterIdx + 1) % 9 }

/-- One full iteration of the `while outs < 3` loop of
`simulate_half_inning`: the steal check runs first and, if a caught stealing
makes the third out, the iteration ends there (`break`); otherwise the
error/wild-pitch check and then the plate appearance follow. -/
def halfInningStep (cfg : Config) (lineup : List Player) (d : ℕ → ℚ)
    (s : HIState) : Except String HIState :=
  let s1 := stealPhase cfg d s
  if 3 ≤ s1.outs then .ok s1
  else paPhase cfg lineup d (errorPhase cfg d s1)

/-- Modelled from the spec: the transition order claimed in its state-machine
description ("check error modifier → check steal modifier (may add an out,
ending the inning at 3) → sample PA outcome ..."), i.e. one loop iteration
with the error check evaluated before the steal check, for comparison with
the source-translated `halfInningStep`. -/
def specOrderStep (cfg : Config) (lineup : List Player) (d : ℕ → ℚ)
    (s : HIState) : Except String HIState :=
  let s1 := stealPhase cfg d (errorPhase cfg d s)
  if 3 ≤ s1.outs then .ok s1
  else paPhase cfg lineup d s1

/-- The fuel-indexed `while outs < 3` loop of `simulate_half_inning`.
`none` means the fuel ran out before the loop exited (the Python loop is
still running). -/
def halfInningLoop (cfg : Config) (lineup : List Player) (d : ℕ → ℚ) :
    ℕ → HIState → Option (Except String HIState)
  | 0, s => if 3 ≤ s.outs then some (.ok s) else none
  | fuel + 1, s =>
    if 3 ≤ s.outs then some (.ok s)
    else
      match halfInningStep cfg lineup d s with
      | .error e => some (.error e)
      | .ok s1 => halfInningLoop cfg lineup d fuel s1

/-- The initial loop state of `simulate_half_inning`: no outs, empty bases,
zeroed tallies, the given starting batter index and draw cursor. -/
def initialHIState (startIdx k : ℕ) : HIState :=
  ⟨0, createEmptyBases, 0, startIdx, 0, 0, 0, 0, 0, 0, k⟩

/-- `simulate_half_inning` from `src/engine/inning.py` (lines 16-129), run to
its final loop state: the 9-batter lineup check raises, then the loop runs
from the initial state.  The returned state carries runs, the next batter
index and all inning tallies (`lob` is read off the final bases). -/
def simulateHalfInning (cfg : Config) (lineup : List Player) (d : ℕ → ℚ)
    (fuel startIdx k : ℕ) : Option (Except String HIState) :=
  if lineup.length ≠ 9 then some (.error "Lineup must have exactly 9 batters")
  else halfInningLoop cfg lineup d fuel (initialHIState startIdx k)

/-- The per-season totals that `run_simulations` reads off each
`simulate_season` result. -/
structure SeasonTotals where
  runs : ℕ
  hits : ℕ
  walks : ℕ
  sb : ℕ
  cs : ℕ
  sf : ℕ
  lob : ℕ
deriving DecidableEq, Repr

/-- Modelled from the spec: the per-inning accumulation of
`simulate_season` (`src/simulation/season.py` is not included under `src/`).
Per the spec, the season orchestrator sums all per-inning tallies into the
season result; stolen-base totals come from the successful attempts and
caught-stealing from the failed ones. -/
def addInningTotals (acc : SeasonTotals) (s : HIState) : SeasonTotals :=
  { runs := acc.runs + s.runs, hits := acc.hits + s.hits,
    walks := acc.walks + s.walks, sb := acc.sb + s.sbSuccess,
    cs := acc.cs + (s.sbAttempts - s.sbSuccess), sf := acc.sf + s.sacFlies,
    lob := acc.lob + countRunnersOnBase s.bases }

/-- Modelled from the spec: `simulate_season`
(`src/simulation/season.py` is not included under `src/`; only its callers
`run_simulations` and `tests/verify_option_c.py` are).  Per the spec, the
season orchestrator repeats the half-inning simulation for
`games × innings-per-game` half-innings, carrying the batter index forward
continuously (no reset between innings or games) and summing the per-inning
tallies; the single draw stream is threaded through every inning. -/
def simulateSeasonAux (cfg : Config) (lineup : List Player) (d : ℕ → ℚ)
    (fuel : ℕ) : ℕ → ℕ → ℕ → SeasonTotals →
    Option (Except String (SeasonTotals × ℕ × ℕ))
  | 0, idx, k, acc => some (.ok (acc, idx, k))
  | n + 1, idx, k, acc =>
    match simulateHalfInning cfg lineup d fuel idx k with
    | none => none
    | some (.error e) => some (.error e)
    | some (.ok s) =>
      simulateSeasonAux cfg lineup d fuel n s.batterIdx s.k (addInningTotals acc s)

/-- Modelled from the spec: one season of `nGames` games of 9 innings,
starting from batter index 0 with the current draw cursor. -/
def simulateSeason (cfg : Config) (lineup : List Player) (d : ℕ → ℚ)
    (fuel nGames k : ℕ) : Option (Except String (SeasonTotals × ℕ × ℕ)) :=
  simulateSeasonAux cfg lineup d fuel (nGames * 9) 0 k ⟨0, 0, 0, 0, 0, 0, 0⟩

/-- The iteration loop of `run_simulations` (`src/simulation/batch.py`
lines 92-111): one season per iteration, appending each season's totals to
the raw per-season vectors, with the single stream threaded sequentially
through every iteration. -/
def runSimulationsAux (cfg : Config) (lineup : List Player) (d : ℕ → ℚ)
    (fuel nGames : ℕ) : ℕ → ℕ → List SeasonTotals →
    Option (Except String (List SeasonTotals))
  | 0, _, acc => some (.ok acc.reverse)
  | n + 1, k, acc =>
    match simulateSeason cfg lineup d fuel nGames k with
    | none => none
    | some (.error e) => some (.error e)
    | some (.ok (tot, _, k1)) =>
      runSimulationsAux cfg lineup d fuel nGames n k1 (tot :: acc)

/-- The raw per-season vectors collected by `run_simulations`
(`src/simulation/batch.py`): the list of per-season totals, in iteration
order, produced from a seed stream, a lineup and the configuration. -/
def runSimulationsRaw (cfg : Config) (lineup : List Player) (d : ℕ → ℚ)
    (fuel nIterations nGames : ℕ) : Option (Except String (List SeasonTotals)) :=
  runSimulationsAux cfg lineup d fuel nGames nIterations 0 []

/-- The nested keys of the `summary` dictionary literal built by
`run_simulations` (`src/simulation/batch.py` lines 129-203): each per-section
entry lists the statistic names that section actually contains. -/
def summaryFields : List (String × List String) :=
  [("runs", ["mean", "std", "median", "min", "max", "percentiles", "ci_95"]),
    ("hits", ["mean", "std", "median"]),
    ("walks", ["mean", "std", "median"]),
    ("stolen_bases", ["mean", "std", "median"]),
    ("caught_stealing", ["mean", "std", "median"]),
    ("sacrifice_flies", ["mean", "std", "median"]),
    ("runs_per_game", ["mean", "std"]),
    ("win_probability", ["mean", "ci_lower", "ci_upper"]),
    ("lob_per_game", ["mean", "std"])]

/-- The sub-keys of `summary['runs']['percentiles']`. -/
def runsPercentileFields : List String := ["5th", "25th", "50th", "75th", "95th"]

/-- The keys of the `raw_data` dictionary returned by `run_simulations`: the
full raw per-season vector of each of the seven tracked quantities. -/
def rawDataFields : List String :=
  ["season_runs", "season_hits", "season_walks", "season_sb", "season_cs",
    "season_sf", "season_lob"]

/-- The statistic set the spec claims for every tracked quantity. -/
def fullStatFields : List String :=
  ["mean", "std", "median", "min", "max", "percentiles", "ci_95"]

/-- The summary keys under which the seven tracked quantities would appear. -/
def trackedQuantityKeys : List String :=
  ["runs", "hits", "walks", "stolen_bases", "caught_stealing",
    "sacrifice_flies", "lob"]

/-- `np.sum(season_runs_arr >= league_avg_runs)` with
`league_avg_runs = 4.5 * n_games`, from `_calculate_win_probability`
(`src/simulation/batch.py` lines 34-36). -/
def winsAboveAvg (seasonRuns : List ℤ) (nGames : ℕ) : ℕ :=
  (seasonRuns.filter (fun (r : ℤ) => (9 : ℚ) / 2 * nGames ≤ (r : ℚ))).length

/-- `p_hat = wins_above_avg / n_iterations`. -/
def pHat (seasonRuns : List ℤ) (nGames nIterations : ℕ) : ℚ :=
  (winsAboveAvg seasonRuns nGames : ℚ) / nIterations

/-- `z = norm.ppf(0.975)`: the float64 value scipy returns for the 97.5%
standard-normal quantile. -/
noncomputable def z975 : ℝ := 1.959963984540054

/-- The Wilson-score centre `(p_hat + z²/(2n)) / (1 + z²/n)`. -/
noncomputable def wilsonCenter (p : ℚ) (n : ℕ) : ℝ :=
  ((p : ℝ) + z975 ^ 2 / (2 * n)) / (1 + z975 ^ 2 / n)

/-- The Wilson-score half-width
`z·√((p(1−p) + z²/(4n))/n) / (1 + z²/n)`. -/
noncomputable def wilsonSpread (p : ℚ) (n : ℕ) : ℝ :=
  z975 * Real.sqrt (((p : ℝ) * (1 - (p : ℝ)) + z975 ^ 2 / (4 * n)) / n) /
    (1 + z975 ^ 2 / n)

/-- `_calculate_win_probability` from `src/simulation/batch.py`
(lines 15-51): the proportion of seasons at or above 4.5 runs per game and
its clamped Wilson-score 95% interval `(mean, ci_lower, ci_upper)`. -/
noncomputable def calculateWinProbability (seasonRuns : List ℤ)
    (nGames nIterations : ℕ) : ℚ × ℝ × ℝ :=
  let p := pHat seasonRuns nGames nIterations
  (p, max 0 (wilsonCenter p nIterations - wilsonSpread p nIterations),
    min 1 (wilsonCenter p nIterations + wilsonSpread p nIterations))

/-- A concrete player with no raw counts and no calibrated probabilities,
used as a test fixture. -/
def mkPlayer (nm : String) : Player :=
  { name := nm, ba := 0.25, obp := 0.32, slg := 0.4, iso := 0.15, pa := 400 }

/-- A constant draw stream: every uniform draw is `1/2`. -/
def constHalf : ℕ → ℚ := fun _ => 1 / 2

/-- C1.  On a WALK with a runner on second and first base empty, the source's
forced-advancement block (`src/models/baserunning.py` lines 77-88) assigns
third from second only when first and second are both occupied, assigns third
from third otherwise, and assigns second only from first — so the unforced
runner on second is never copied into `bases_after` and vanishes: the play
returns bases holding only the batter at first and no run scored, although a
runner was on base before the walk. -/
theorem advanceRunners_walk_drops_second_runner :
    advanceRunners defaultConfig "WALK"
        ⟨none, some (mkPlayer "runner2"), none⟩ (mkPlayer "batter") constHalf 0 =
      .ok (⟨some (mkPlayer "batter"), none, none⟩, 0, 0) ∧
    mkPlayer "runner2" ≠ mkPlayer "batter" := by
  constructor
  · rfl
  · decide

/-- C5.  `advance_runners` preserves distinctness of the base occupants: for
every no-duplicate bases state not already containing the batter, every
outcome string and every draw stream, any state it returns (it raises on
unknown hit types) again has no player on two bases.  The other half of the
spec's base-state invariant — that a slot is either genuinely empty or holds
a real player — is enforced by the `Option Player` slot type of the
embedding. -/
theorem advanceRunners_preserves_noDupOcc (cfg : Config) (outcome : String)
    (b : Bases) (batter : Player) (d : ℕ → ℚ) (k : ℕ)
    (hnd : b.noDupOcc) (hno : b.notOn batter) (b' : Bases) (r k' : ℕ)
    (h : advanceRunners cfg outcome b batter d k = .ok (b', r, k')) :
    b'.noDupOcc := by
  obtain ⟨f, s, t⟩ := b
  simp only [Bases.noDupOcc, Bases.notOn] at hnd hno ⊢
  by_cases h1 : outcome = "OUT"
  · subst h1
    simp [advanceRunners] at h
    obtain ⟨rfl, -, -⟩ := h
    exact hnd
  · by_cases h2 : outcome = "WALK"
    · subst h2
      cases f <;> cases s <;> cases t <;>
        simp [advanceRunners] at h <;>
        obtain ⟨rfl, -, -⟩ := h <;>
        simp_all [Option.isSome_some, ne_eq, Option.some.injEq,
          Ne.symm hno.1, Ne.symm hno.2.1, Ne.symm hno.2.2]
    · by_cases h3 : outcome = "SINGLE"
      · subst h3
        cases f <;> cases s <;> cases t <;>
          simp [advanceRunners] at h <;>
          (try split_ifs at h) <;>
          (try simp only [Except.ok.injEq, Prod.mk.injEq] at h) <;>
          obtain ⟨rfl, -, -⟩ := h <;>
          simp_all [Option.isSome_some, ne_eq, Option.some.injEq,
            Ne.symm hno.1, Ne.symm hno.2.1, Ne.symm hno.2.2]
      · by_cases h4 : outcome = "DOUBLE"
        · subst h4
          cases f <;> cases s <;> cases t <;>
            simp [advanceRunners, doubleFirstRunner] at h <;>
            (try split_ifs at h) <;>
            (try simp only [Except.ok.injEq, Prod.mk.injEq] at h) <;>
            obtain ⟨rfl, -, -⟩ := h <;>
            simp_all [Option.isSome_some, ne_eq, Option.some.injEq,
              Ne.symm hno.1, Ne.symm hno.2.1, Ne.symm hno.2.2]
        · by_cases h5 : outcome = "TRIPLE"
          · subst h5
            simp [advanceRunners] at h
            obtain ⟨rfl, -, -⟩ := h
            simp
          · by_cases h6 : outcome = "HR"
            · subst h6
              simp [advanceRunners] at h
              obtain ⟨rfl, -, -⟩ := h
              simp
            · simp [advanceRunners, h1, h2, h3, h4, h5, h6] at h

/-- Witness for the base-state invariant: a single on a base state with one
runner on first, evaluated concretely. -/
theorem advanceRunners_preserves_noDupOcc_witness :
    Bases.noDupOcc ⟨some (mkPlayer "a"), none, none⟩ ∧
      Bases.notOn ⟨some (mkPlayer "a"), none, none⟩ (mkPlayer "b") ∧
      Bases.noDupOcc ⟨some (mkPlayer "b"), some (mkPlayer "a"), none⟩ :=
  ⟨by decide, by decide,
    advanceRunners_preserves_noDupOcc defaultConfig "SINGLE"
      ⟨some (mkPlayer "a"), none, none⟩ (mkPlayer "b") constHalf 0 (by decide)
      (by decide) ⟨some (mkPlayer "b"), some (mkPlayer "a"), none⟩ 0 1
      (by norm_num [advanceRunners, defaultConfig, constHalf]; rfl)⟩

/-- On any play `advance_runners` completes, the runs scored are at most the
number of runners on base beforehand, plus one more (the batter) on a home
run. -/
theorem advanceRunners_runs_bound (cfg : Config) (outcome : String)
    (b : Bases) (batter : Player) (d : ℕ → ℚ) (k : ℕ) (b' : Bases) (r k' : ℕ)
    (h : advanceRunners cfg outcome b batter d k = .ok (b', r, k')) :
    r ≤ countRunnersOnBase b + (if outcome = "HR" then 1 else 0) := by
  obtain ⟨f, s, t⟩ := b
  by_cases h1 : outcome = "OUT"
  · subst h1
    simp [advanceRunners] at h
    obtain ⟨-, rfl, -⟩ := h
    simp [countRunnersOnBase]
  · by_cases h2 : outcome = "WALK"
    · subst h2
      cases f <;> cases s <;> cases t <;>
        simp [advanceRunners] at h <;>
        obtain ⟨-, rfl, -⟩ := h <;>
        simp [countRunnersOnBase]
    · by_cases h3 : outcome = "SINGLE"
      · subst h3
        cases f <;> cases s <;> cases t <;>
          simp [advanceRunners] at h <;>
          (try split_ifs at h) <;>
          (try simp only [Except.ok.injEq, Prod.mk.injEq] at h) <;>
          obtain ⟨-, rfl, -⟩ := h <;>
          simp [countRunnersOnBase]
      · by_cases h4 : outcome = "DOUBLE"
        · subst h4
          cases f <;> cases s <;> cases t <;>
            simp [advanceRunners, doubleFirstRunner] at h <;>
            (try split_ifs at h) <;>
            (try simp only [Except.ok.injEq, Prod.mk.injEq] at h) <;>
            obtain ⟨-, rfl, -⟩ := h <;>
            simp [countRunnersOnBase]
        · by_cases h5 : outcome = "TRIPLE"
          · subst h5
            cases f <;> cases s <;> cases t <;>
              simp [advanceRunners] at h <;>
              obtain ⟨-, rfl, -⟩ := h <;>
              simp [countRunnersOnBase]
          · by_cases h6 : outcome = "HR"
            · subst h6
              cases f <;> cases s <;> cases t <;>
                simp [advanceRunners] at h <;>
                obtain ⟨-, rfl, -⟩ := h <;>
                simp [countRunnersOnBase]
            · simp [advanceRunners, h1, h2, h3, h4, h5, h6] at h

/-- The runs a sacrifice-fly check produces never exceed the runners on
base: it scores exactly the runner from third, and only when third is
occupied. -/
theorem checkSacrificeFly_runs_bound (cfg : Config) (b : Bases) (outs : ℕ)
    (d : ℕ → ℚ) (k : ℕ) :
    (checkSacrificeFly cfg b outs d k).2.1 ≤ countRunnersOnBase b := by
  obtain ⟨f, s, t⟩ := b
  unfold checkSacrificeFly
  cases t <;> split_ifs <;> simp [countRunnersOnBase]

/-- A draw stream whose every value is `1/10`: low enough to make the
sacrifice-fly check fire. -/
def dLow : ℕ → ℚ := fun _ => 1 / 10

/-- A loop state with nobody out and a runner on third. -/
def hiStateOnThird : HIState :=
  ⟨0, ⟨none, none, some (mkPlayer "r3")⟩, 0, 0, 0, 0, 0, 0, 0, 0, 0⟩

/-- C2, counterexample.  With nobody out, a runner on third and a flyout draw
(`1/10 < 0.35`), the sacrifice-fly check fires on an `'OUT'` outcome — the
run scores and the sac-fly tally increments — yet `outs += 1` still executes
(`src/engine/inning.py` line 98 is outside the `if is_sf` block), so the out
count rises from 0 to 1, contradicting the claim that a converted sacrifice
fly leaves the out count unchanged. -/
theorem handlePAOutcome_sacFly_still_counts_out :
    handlePAOutcome defaultConfig (mkPlayer "b") "OUT" dLow hiStateOnThird =
        .ok ⟨1, ⟨none, none, none⟩, 1, 0, 0, 0, 0, 0, 0, 1, 1⟩ ∧
      (⟨1, ⟨none, none, none⟩, 1, 0, 0, 0, 0, 0, 0, 1, 1⟩ : HIState).sacFlies =
        hiStateOnThird.sacFlies + 1 ∧
      (⟨1, ⟨none, none, none⟩, 1, 0, 0, 0, 0, 0, 0, 1, 1⟩ : HIState).outs ≠
        hiStateOnThird.outs := by
  refine ⟨?_, by decide, by decide⟩
  norm_num [handlePAOutcome, checkSacrificeFly, defaultConfig, dLow,
    hiStateOnThird]

/-- C2, amended.  For every plate appearance the outcome handler completes,
outs-after equals outs-before plus 1 exactly when the outcome is `'OUT'` —
whether or not the out was converted into a sacrifice fly (the sac fly
scores the run but the out still counts) — and plus 0 on every other
completed outcome (a `'STRIKEOUT'` outcome raises in `advance_runners`
instead of completing); and the runs scored on the PA are at most the
runners on base before it, plus 1 on a home run. -/
theorem handlePAOutcome_conservation (cfg : Config) (batter : Player)
    (outcome : String) (d : ℕ → ℚ) (s s' : HIState)
    (h : handlePAOutcome cfg batter outcome d s = .ok s') :
    s'.outs = s.outs + (if outcome = "OUT" then 1 else 0) ∧
      s.runs ≤ s'.runs ∧
      s'.runs - s.runs ≤
        countRunnersOnBase s.bases + (if outcome = "HR" then 1 else 0) := by
  by_cases hOut : outcome = "OUT"
  · subst hOut
    simp [handlePAOutcome] at h
    obtain rfl := h
    have hb := checkSacrificeFly_runs_bound cfg s.bases s.outs d s.k
    split_ifs <;> simp_all
  · rcases hA : advanceRunners cfg outcome s.bases batter d s.k with e | ⟨b1, r1, k1⟩
    · simp [handlePAOutcome, hOut, hA] at h
    · have hr := advanceRunners_runs_bound cfg outcome s.bases batter d s.k b1 r1 k1 hA
      simp [handlePAOutcome, hOut, hA] at h
      split_ifs at h <;> simp only [Except.ok.injEq] at h <;>
        obtain rfl := h <;> simp [hOut] <;> omega

/-- `check_steal_opportunities` can add at most one out (the first-base
half). -/
theorem checkStealFromFirst_outs_le (cfg : Config) (b : Bases) (outs : ℕ)
    (d : ℕ → ℚ) (k : ℕ) (t : ℚ) :
    (checkStealFromFirst cfg b outs d k t).2.1 ≤ 1 := by
  obtain ⟨f, s, t3⟩ := b
  cases f <;> cases s <;> simp only [checkStealFromFirst] <;>
    (try split_ifs) <;> simp

/-- `check_steal_opportunities` adds at most one out per between-PA check. -/
theorem checkStealOpportunities_outs_le (cfg : Config) (b : Bases) (outs : ℕ)
    (d : ℕ → ℚ) (k : ℕ) (t : ℚ) :
    (checkStealOpportunities cfg b outs d k t).2.1 ≤ 1 := by
  rcases hb : b.second with - | runner <;> rcases hb3 : b.third with - | r3 <;>
    simp only [checkStealOpportunities, hb, hb3] <;>
    (try split_ifs) <;>
    first
      | apply checkStealFromFirst_outs_le
      | simp

/-- The steal phase of a loop iteration adds at most one out. -/
theorem stealPhase_outs_le (cfg : Config) (d : ℕ → ℚ) (s : HIState) :
    (stealPhase cfg d s).outs ≤ s.outs + 1 := by
  unfold stealPhase
  split_ifs
  · have := checkStealOpportunities_outs_le cfg s.bases s.outs d s.k (1 / 20)
    simp only
    omega
  · omega

/-- The steal phase does not consume a plate appearance. -/
theorem stealPhase_paCount (cfg : Config) (d : ℕ → ℚ) (s : HIState) :
    (stealPhase cfg d s).paCount = s.paCount := by
  unfold stealPhase; split_ifs <;> rfl

/-- The steal phase does not move the batting order. -/
theorem stealPhase_batterIdx (cfg : Config) (d : ℕ → ℚ) (s : HIState) :
    (stealPhase cfg d s).batterIdx = s.batterIdx := by
  unfold stealPhase; split_ifs <;> rfl

/-- The error/wild-pitch phase never records an out. -/
theorem errorPhase_outs (cfg : Config) (d : ℕ → ℚ) (s : HIState) :
    (errorPhase cfg d s).outs = s.outs := by
  unfold errorPhase; dsimp only; split_ifs <;> rfl

/-- The error/wild-pitch phase does not move the batting order. -/
theorem errorPhase_batterIdx (cfg : Config) (d : ℕ → ℚ) (s : HIState) :
    (errorPhase cfg d s).batterIdx = s.batterIdx := by
  unfold errorPhase; dsimp only; split_ifs <;> rfl

/-- The outcome handler leaves the batter index alone (the index advances
afterwards, at the bottom of the loop). -/
theorem handlePAOutcome_batterIdx (cfg : Config) (batter : Player)
    (outcome : String) (d : ℕ → ℚ) (s s' : HIState)
    (h : handlePAOutcome cfg batter outcome d s = .ok s') :
    s'.batterIdx = s.batterIdx := by
  by_cases hOut : outcome = "OUT"
  · subst hOut
    simp [handlePAOutcome] at h
    obtain rfl := h
    split_ifs <;> rfl
  · rcases hA : advanceRunners cfg outcome s.bases batter d s.k with e | ⟨b1, r1, k1⟩
    · simp [handlePAOutcome, hOut, hA] at h
    · simp [handlePAOutcome, hOut, hA] at h
      split_ifs at h <;> simp only [Except.ok.injEq] at h <;>
        obtain rfl := h <;> rfl

/-- After a completed plate appearance the batter index has advanced by one,
modulo 9. -/
theorem paPhase_batterIdx (cfg : Config) (lineup : List Player) (d : ℕ → ℚ)
    (s s' : HIState) (h : paPhase cfg lineup d s = .ok s') :
    s'.batterIdx = (s.batterIdx + 1) % 9 := by
  unfold paPhase at h
  rcases hg : lineup[s.batterIdx]? with - | batter
  · simp [hg] at h
  · rcases hgen : generateOutcome batter d s.k with e | ⟨outcome, k1⟩
    · simp [hg, hgen] at h
    · simp only [hg, hgen] at h
      rcases hh : handlePAOutcome cfg batter outcome d
          { s with paCount := s.paCount + 1, k := k1 } with e2 | s2
      · simp [hh] at h
      · simp only [hh, Except.ok.injEq] at h
        obtain rfl := h
        have hidx := handlePAOutcome_batterIdx cfg batter outcome d
          { s with paCount := s.paCount + 1, k := k1 } s2 hh
        simp [hidx]

/-- A batter whose calibrated distribution always yields `'OUT'`. -/
def pOut : Player :=
  { mkPlayer "alwaysOut" with paProbs := some ⟨1, 0, 0, 0, 0, 0, 0⟩ }

/-- A nine-player lineup of `pOut` batters. -/
def lineupOut : List Player :=
  [pOut, pOut, pOut, pOut, pOut, pOut, pOut, pOut, pOut]

/-- The draw stream used to separate the two modifier orders: the first draw
is low enough for both a steal attempt (`< 0.05`) and an error (`≤ 0.015`),
the second fails the steal success check (`4/5 ≥ 0.75`). -/
def dOrder : ℕ → ℚ := fun k => if k = 0 then 1 / 100 else if k = 1 then 4 / 5 else 1 / 2

/-- A loop state with nobody out and a runner (with no stolen-base record) on
first. -/
def hiStateOnFirst : HIState :=
  ⟨0, ⟨some (mkPlayer "noSb"), none, none⟩, 0, 0, 0, 0, 0, 0, 0, 0, 0⟩

/-- C3, counterexample.  On the same state and draw stream, running the error
check before the steal check (as the claim orders the modifiers) produces a
different iteration result than the source's loop body: the source attempts
the steal first (draw 1 is consumed by the success check, the runner is
caught, an out is recorded), while the claimed order first turns draw 0 into
an error that advances the runner to second, after which no steal is
attempted.  The two resulting states differ in outs, bases and draw cursor. -/
theorem halfInningStep_differs_from_spec_order :
    halfInningStep defaultConfig lineupOut dOrder hiStateOnFirst ≠
      specOrderStep defaultConfig lineupOut dOrder hiStateOnFirst := by
  have hA : stealPhase defaultConfig dOrder hiStateOnFirst =
      ⟨1, ⟨none, none, none⟩, 0, 0, 0, 0, 0, 1, 0, 0, 2⟩ := by
    norm_num [stealPhase, checkStealOpportunities, checkStealFromFirst,
      shouldAttemptSteal, attemptStolenBase, calculateSbRate, defaultConfig,
      dOrder, hiStateOnFirst, mkPlayer]
    all_goals simp
  have hB : errorPhase defaultConfig dOrder
      ⟨1, ⟨none, none, none⟩, 0, 0, 0, 0, 0, 1, 0, 0, 2⟩ =
      ⟨1, ⟨none, none, none⟩, 0, 0, 0, 0, 0, 1, 0, 0, 3⟩ := by
    norm_num [errorPhase, checkErrorAdvancesRunner, defaultConfig, dOrder]
  have hC : paPhase defaultConfig lineupOut dOrder
      ⟨1, ⟨none, none, none⟩, 0, 0, 0, 0, 0, 1, 0, 0, 3⟩ =
      .ok ⟨2, ⟨none, none, none⟩, 0, 1, 1, 0, 0, 1, 0, 0, 4⟩ := by
    norm_num [paPhase, lineupOut, pOut, mkPlayer, generateOutcome,
      outcomeEnumeration, findOutcomeFromCum, dOrder, handlePAOutcome,
      checkSacrificeFly, defaultConfig]
  have h1 : halfInningStep defaultConfig lineupOut dOrder hiStateOnFirst =
      .ok ⟨2, ⟨none, none, none⟩, 0, 1, 1, 0, 0, 1, 0, 0, 4⟩ := by
    simp only [halfInningStep, hA, hB, hC]
    norm_num
  have hD : errorPhase defaultConfig dOrder hiStateOnFirst =
      ⟨0, ⟨none, some (mkPlayer "noSb"), none⟩, 0, 0, 0, 0, 0, 0, 0, 0, 1⟩ := by
    norm_num [errorPhase, checkErrorAdvancesRunner, defaultConfig, dOrder,
      hiStateOnFirst]
    all_goals simp
  have hE : stealPhase defaultConfig dOrder
      ⟨0, ⟨none, some (mkPlayer "noSb"), none⟩, 0, 0, 0, 0, 0, 0, 0, 0, 1⟩ =
      ⟨0, ⟨none, some (mkPlayer "noSb"), none⟩, 0, 0, 0, 0, 0, 0, 0, 0, 2⟩ := by
    norm_num [stealPhase, checkStealOpportunities, checkStealFromFirst,
      shouldAttemptSteal, attemptStolenBase, calculateSbRate, defaultConfig,
      dOrder, mkPlayer]
  have hF : paPhase defaultConfig lineupOut dOrder
      ⟨0, ⟨none, some (mkPlayer "noSb"), none⟩, 0, 0, 0, 0, 0, 0, 0, 0, 2⟩ =
      .ok ⟨1, ⟨none, some (mkPlayer "noSb"), none⟩, 0, 1, 1, 0, 0, 0, 0, 0, 3⟩ := by
    norm_num [paPhase, lineupOut, pOut, mkPlayer, generateOutcome,
      outcomeEnumeration, findOutcomeFromCum, dOrder, handlePAOutcome,
      checkSacrificeFly, defaultConfig]
  have h2 : specOrderStep defaultConfig lineupOut dOrder hiStateOnFirst =
      .ok ⟨1, ⟨none, some (mkPlayer "noSb"), none⟩, 0, 1, 1, 0, 0, 0, 0, 0, 3⟩ := by
    simp only [specOrderStep, hD, hE, hF]
    norm_num
  rw [h1, h2]
  intro hEq
  simp at hEq

/-- C3, amended.  One iteration of the half-inning loop evaluates the
stolen-base check first, then the error/wild-pitch check, then the plate
appearance for the current batter — the reverse of the claimed
error-then-steal order for the two modifiers.  The steal check may add at
most one out and, when it reaches three outs, ends the iteration before any
further phase runs; the error check never changes the out count; on `'OUT'`
the sacrifice-fly check precedes the outs increment and on the other
completed outcomes bases are advanced and runs accumulated (both inside
`handlePAOutcome`, which `paPhase` invokes); a completed plate appearance
advances the batter index modulo 9; the loop repeats until outs reach 3. -/
theorem halfInningStep_order (cfg : Config) (lineup : List Player)
    (d : ℕ → ℚ) (s : HIState) :
    halfInningStep cfg lineup d s =
        (if 3 ≤ (stealPhase cfg d s).outs then .ok (stealPhase cfg d s)
         else paPhase cfg lineup d (errorPhase cfg d (stealPhase cfg d s))) ∧
      (stealPhase cfg d s).outs ≤ s.outs + 1 ∧
      (stealPhase cfg d s).paCount = s.paCount ∧
      (errorPhase cfg d s).outs = s.outs ∧
      (∀ s', paPhase cfg lineup d s = .ok s' →
        s'.batterIdx = (s.batterIdx + 1) % 9) :=
  ⟨rfl, stealPhase_outs_le cfg d s, stealPhase_paCount cfg d s,
    errorPhase_outs cfg d s, fun s' h => paPhase_batterIdx cfg lineup d s s' h⟩

/-- Witness for the iteration-order theorem: a concrete completed plate
appearance advances the batter index from 0 to 1. -/
theorem halfInningStep_order_witness :
    (⟨1, ⟨none, none, none⟩, 0, 1, 1, 0, 0, 0, 0, 0, 1⟩ : HIState).batterIdx =
      ((initialHIState 0 0).batterIdx + 1) % 9 :=
  (halfInningStep_order defaultConfig lineupOut constHalf
        (initialHIState 0 0)).2.2.2.2
    ⟨1, ⟨none, none, none⟩, 0, 1, 1, 0, 0, 0, 0, 0, 1⟩
    (by norm_num [paPhase, initialHIState, createEmptyBases, lineupOut, pOut,
      mkPlayer, generateOutcome, outcomeEnumeration, findOutcomeFromCum,
      constHalf, handlePAOutcome, checkSacrificeFly, defaultConfig])

/-- The outcome handler changes the out count by exactly one on `'OUT'` and
not at all on any other completed outcome. -/
theorem handlePAOutcome_outs_eq (cfg : Config) (batter : Player)
    (outcome : String) (d : ℕ → ℚ) (s s' : HIState)
    (h : handlePAOutcome cfg batter outcome d s = .ok s') :
    s'.outs = s.outs + (if outcome = "OUT" then 1 else 0) := by
  by_cases hOut : outcome = "OUT"
  · subst hOut
    simp [handlePAOutcome] at h
    obtain rfl := h
    split_ifs <;> simp_all
  · rcases hA : advanceRunners cfg outcome s.bases batter d s.k with e | ⟨b1, r1, k1⟩
    · simp [handlePAOutcome, hOut, hA] at h
    · simp [handlePAOutcome, hOut, hA] at h
      split_ifs at h <;> simp only [Except.ok.injEq] at h <;>
        obtain rfl := h <;> simp [hOut]

/-- A completed plate-appearance phase adds at most one out. -/
theorem paPhase_outs_le (cfg : Config) (lineup : List Player) (d : ℕ → ℚ)
    (s s' : HIState) (h : paPhase cfg lineup d s = .ok s') :
    s'.outs ≤ s.outs + 1 := by
  unfold paPhase at h
  rcases hg : lineup[s.batterIdx]? with - | batter
  · simp [hg] at h
  · rcases hgen : generateOutcome batter d s.k with e | ⟨outcome, k1⟩
    · simp [hg, hgen] at h
    · simp only [hg, hgen] at h
      rcases hh : handlePAOutcome cfg batter outcome d
          { s with paCount := s.paCount + 1, k := k1 } with e2 | s2
      · simp [hh] at h
      · simp only [hh, Except.ok.injEq] at h
        obtain rfl := h
        have ho := handlePAOutcome_outs_eq cfg batter outcome d
          { s with paCount := s.paCount + 1, k := k1 } s2 hh
        simp only [ho]
        split_ifs <;> simp

/-- From a state with at most two outs, one loop iteration leaves at most
three outs. -/
theorem halfInningStep_outs_le (cfg : Config) (lineup : List Player)
    (d : ℕ → ℚ) (s s' : HIState) (h2 : s.outs ≤ 2)
    (h : halfInningStep cfg lineup d s = .ok s') : s'.outs ≤ 3 := by
  simp only [halfInningStep] at h
  have hle := stealPhase_outs_le cfg d s
  split_ifs at h with h3
  · obtain rfl := Except.ok.inj h
    omega
  · have hp := paPhase_outs_le cfg lineup d (errorPhase cfg d (stealPhase cfg d s)) s' h
    rw [errorPhase_outs] at hp
    omega

/-- The half-inning loop, whenever it exits normally from a state with at
most three outs, exits with exactly three. -/
theorem halfInningLoop_outs (cfg : Config) (lineup : List Player)
    (d : ℕ → ℚ) : ∀ (fuel : ℕ) (s s' : HIState), s.outs ≤ 3 →
    halfInningLoop cfg lineup d fuel s = some (.ok s') → s'.outs = 3 := by
  intro fuel
  induction fuel with
  | zero =>
    intro s s' hle h
    unfold halfInningLoop at h
    split_ifs at h with h3
    obtain rfl := Except.ok.inj (Option.some.inj h)
    omega
  | succ n ih =>
    intro s s' hle h
    unfold halfInningLoop at h
    split_ifs at h with h3
    · obtain rfl := Except.ok.inj (Option.some.inj h)
      omega
    · rcases hstep : halfInningStep cfg lineup d s with e | s1
      · rw [hstep] at h
        simp at h
      · rw [hstep] at h
        exact ih s1 s' (halfInningStep_outs_le cfg lineup d s s1 (by omega) hstep) h

/-- C4, amended.  Whenever `simulate_half_inning` terminates normally, the
out count at termination is exactly 3 — for every lineup, draw stream and
fuel bound.  Unconditional termination fails: an outcome sequence with no
outs at all (for example a lineup of batters who always walk) keeps the
`while outs < 3` loop running forever, as the companion counterexample
shows. -/
theorem simulateHalfInning_outs_eq_three (cfg : Config)
    (lineup : List Player) (d : ℕ → ℚ) (fuel startIdx k : ℕ) (s' : HIState)
    (h : simulateHalfInning cfg lineup d fuel startIdx k = some (.ok s')) :
    s'.outs = 3 := by
  unfold simulateHalfInning at h
  split_ifs at h with hlen
  · exact absurd h (by simp)
  · exact halfInningLoop_outs cfg lineup d fuel (initialHIState startIdx k) s'
      (by simp [initialHIState]) h

/-- Witness for the termination theorem: an all-`'OUT'` lineup finishes a
half-inning in three plate appearances with exactly three outs. -/
theorem simulateHalfInning_outs_eq_three_witness :
    ∃ sf : HIState,
      simulateHalfInning defaultConfig lineupOut constHalf 5 0 0 =
          some (.ok sf) ∧ sf.outs = 3 := by
  have hEq : simulateHalfInning defaultConfig lineupOut constHalf 5 0 0 =
      some (.ok ⟨3, ⟨none, none, none⟩, 0, 3, 3, 0, 0, 0, 0, 0, 6⟩) := by
    norm_num [simulateHalfInning, halfInningLoop, halfInningStep, stealPhase,
      errorPhase, paPhase, checkStealOpportunities, checkStealFromFirst,
      checkErrorAdvancesRunner, generateOutcome, outcomeEnumeration,
      findOutcomeFromCum, handlePAOutcome, checkSacrificeFly, initialHIState,
      createEmptyBases, lineupOut, pOut, mkPlayer, constHalf, defaultConfig]
  exact ⟨_, hEq,
    simulateHalfInning_outs_eq_three defaultConfig lineupOut constHalf 5 0 0
      _ hEq⟩

/-- A batter whose calibrated distribution always yields `'WALK'`. -/
def pWalk : Player :=
  { mkPlayer "alwaysWalk" with paProbs := some ⟨0, 0, 1, 0, 0, 0, 0⟩ }

/-- A nine-player lineup of `pWalk` batters. -/
def lineupWalk : List Player :=
  [pWalk, pWalk, pWalk, pWalk, pWalk, pWalk, pWalk, pWalk, pWalk]

/-- The configuration with every situational-modifier toggle switched off
(each is an advertised `config.py` switch). -/
def cfgPlain : Config :=
  { defaultConfig with enableStolenBases := false,
                       enableSacrificeFlies := false,
                       enableProbabilisticBaserunning := false,
                       enableErrorsWildPitches := false }

/-- Against the all-walk lineup, the plate-appearance phase always completes
with a `'WALK'`: the out count is untouched and the batter index advances
modulo 9. -/
theorem walkPaPhase (s : HIState) (h9 : s.batterIdx < 9) :
    ∃ s', paPhase cfgPlain lineupWalk constHalf s = .ok s' ∧
      s'.outs = s.outs ∧ s'.batterIdx = (s.batterIdx + 1) % 9 := by
  have hget : lineupWalk[s.batterIdx]? = some pWalk := by
    obtain ⟨outs, bases, runs, idx, pac, hitsC, walksC, sba, sbs, sfc, k⟩ := s
    simp only at h9 ⊢
    interval_cases idx <;> rfl
  have hgen : generateOutcome pWalk constHalf s.k = .ok ("WALK", s.k + 1) := by
    norm_num [generateOutcome, pWalk, mkPlayer, outcomeEnumeration,
      findOutcomeFromCum, constHalf]
  rcases hh : handlePAOutcome cfgPlain pWalk "WALK" constHalf
      { s with paCount := s.paCount + 1, k := s.k + 1 } with e | s2
  · simp [handlePAOutcome, advanceRunners] at hh
  · have ho := handlePAOutcome_outs_eq cfgPlain pWalk "WALK" constHalf
      { s with paCount := s.paCount + 1, k := s.k + 1 } s2 hh
    have hb := handlePAOutcome_batterIdx cfgPlain pWalk "WALK" constHalf
      { s with paCount := s.paCount + 1, k := s.k + 1 } s2 hh
    refine ⟨{ s2 with batterIdx := (s2.batterIdx + 1) % 9 }, ?_, ?_, ?_⟩
    · simp only [paPhase, hget, hgen, hh]
    · simpa using ho
    · have hb' : s2.batterIdx = s.batterIdx := by simpa using hb
      simp [hb']

/-- Against the all-walk lineup with all modifiers disabled, one loop
iteration never records an out. -/
theorem walkStep (s : HIState) (h0 : s.outs = 0) (h9 : s.batterIdx < 9) :
    ∃ s', halfInningStep cfgPlain lineupWalk constHalf s = .ok s' ∧
      s'.outs = 0 ∧ s'.batterIdx < 9 := by
  obtain ⟨s', hp, ho, hb⟩ := walkPaPhase s h9
  have hsteal : stealPhase cfgPlain constHalf s = s := by
    simp [stealPhase, cfgPlain, defaultConfig]
  have herr : errorPhase cfgPlain constHalf s = s := by
    simp [errorPhase, cfgPlain, defaultConfig]
  refine ⟨s', ?_, by omega, by rw [hb]; exact Nat.mod_lt _ (by norm_num)⟩
  simp only [halfInningStep, hsteal, herr, h0]
  norm_num
  exact hp

/-- Against the all-walk lineup the half-inning loop runs out of any amount
of fuel: outs stay at zero forever. -/
theorem walkLoop_none : ∀ (fuel : ℕ) (s : HIState), s.outs = 0 →
    s.batterIdx < 9 →
    halfInningLoop cfgPlain lineupWalk constHalf fuel s = none := by
  intro fuel
  induction fuel with
  | zero =>
    intro s h0 h9
    unfold halfInningLoop
    rw [if_neg (by omega)]
  | succ n ih =>
    intro s h0 h9
    obtain ⟨s', hstep, h0', h9'⟩ := walkStep s h0 h9
    unfold halfInningLoop
    rw [if_neg (by omega), hstep]
    exact ih s' h0' h9'

/-- C4, counterexample.  The claim that `simulate_half_inning` terminates for
every 9-player lineup and every PA-outcome sequence is false: on the
all-walk lineup (an outcome sequence with no outs at all) the
`while outs < 3` loop never exits — no fuel bound suffices. -/
theorem simulateHalfInning_walk_never_terminates :
    ¬ ∃ (fuel : ℕ) (r : Except String HIState),
      simulateHalfInning cfgPlain lineupWalk constHalf fuel 0 0 = some r := by
  rintro ⟨fuel, r, hr⟩
  rw [simulateHalfInning, if_neg (by norm_num [lineupWalk])] at hr
  rw [walkLoop_none fuel (initialHIState 0 0) (by rfl) (by norm_num [initialHIState])] at hr
  exact Option.noConfusion hr

/-- Witness for the conservation theorem: the concrete sacrifice-fly play
evaluated above satisfies the amended accounting. -/
theorem handlePAOutcome_conservation_witness :
    (⟨1, ⟨none, none, none⟩, 1, 0, 0, 0, 0, 0, 0, 1, 1⟩ : HIState).outs =
        hiStateOnThird.outs + (if "OUT" = "OUT" then 1 else 0) ∧
      hiStateOnThird.runs ≤
        (⟨1, ⟨none, none, none⟩, 1, 0, 0, 0, 0, 0, 0, 1, 1⟩ : HIState).runs ∧
      (⟨1, ⟨none, none, none⟩, 1, 0, 0, 0, 0, 0, 0, 1, 1⟩ : HIState).runs -
          hiStateOnThird.runs ≤
        countRunnersOnBase hiStateOnThird.bases +
          (if "OUT" = "HR" then 1 else 0) :=
  handlePAOutcome_conservation defaultConfig (mkPlayer "b") "OUT" dLow
    hiStateOnThird ⟨1, ⟨none, none, none⟩, 1, 0, 0, 0, 0, 0, 0, 1, 1⟩
    (by norm_num [handlePAOutcome, checkSacrificeFly, defaultConfig, dLow,
      hiStateOnThird])

/-- A probability list with non-negative entries summing to exactly 1 passes
`validate_probabilities`. -/
theorem validProbList_of (l : List ℚ) (hn : ∀ x ∈ l, 0 ≤ x)
    (hs : l.sum = 1) : validProbList l := by
  refine ⟨fun x hx => not_lt.mpr (hn x hx), ?_⟩
  rw [hs]
  norm_num

/-- Under the shipped configuration, `calculate_hit_distribution` always
returns four non-negative probabilities summing to exactly 1 — on the
empirical-counts path, the Bayesian-smoothing path, the league fallback and
every branch of the ISO interpolation. -/
theorem calculateHitDistribution_valid (p : Player) :
    0 ≤ (calculateHitDistribution defaultConfig p).h1B ∧
      0 ≤ (calculateHitDistribution defaultConfig p).h2B ∧
      0 ≤ (calculateHitDistribution defaultConfig p).h3B ∧
      0 ≤ (calculateHitDistribution defaultConfig p).hHR ∧
      (calculateHitDistribution defaultConfig p).h1B +
          (calculateHitDistribution defaultConfig p).h2B +
          (calculateHitDistribution defaultConfig p).h3B +
          (calculateHitDistribution defaultConfig p).hHR = 1 := by
  simp only [calculateHitDistribution, defaultConfig]
  split
  · rename_i s1 d2 t3 h4 hs1 hd2 ht3 hh4
    split_ifs with hz hlt
    · norm_num
    · have hT0 : ((s1 + d2 + t3 + h4 : ℕ) : ℚ) ≠ 0 := by exact_mod_cast hz
      have hTnn : (0 : ℚ) ≤ ((s1 + d2 + t3 + h4 : ℕ) : ℚ) := by positivity
      have hDpos : (0 : ℚ) < 100 + ((s1 + d2 + t3 + h4 : ℕ) : ℚ) := by
        positivity
      have c1 : ((s1 : ℚ) / ((s1 + d2 + t3 + h4 : ℕ) : ℚ)) *
          ((s1 + d2 + t3 + h4 : ℕ) : ℚ) = (s1 : ℚ) := div_mul_cancel₀ _ hT0
      have c2 : ((d2 : ℚ) / ((s1 + d2 + t3 + h4 : ℕ) : ℚ)) *
          ((s1 + d2 + t3 + h4 : ℕ) : ℚ) = (d2 : ℚ) := div_mul_cancel₀ _ hT0
      have c3 : ((t3 : ℚ) / ((s1 + d2 + t3 + h4 : ℕ) : ℚ)) *
          ((s1 + d2 + t3 + h4 : ℕ) : ℚ) = (t3 : ℚ) := div_mul_cancel₀ _ hT0
      have c4 : ((h4 : ℚ) / ((s1 + d2 + t3 + h4 : ℕ) : ℚ)) *
          ((s1 + d2 + t3 + h4 : ℕ) : ℚ) = (h4 : ℚ) := div_mul_cancel₀ _ hT0
      simp only [c1, c2, c3, c4]
      refine ⟨by positivity, by positivity, by positivity, by positivity, ?_⟩
      rw [div_add_div_same, div_add_div_same, div_add_div_same,
        div_eq_one_iff_eq (ne_of_gt hDpos)]
      push_cast
      ring
    · have hT0 : ((s1 + d2 + t3 + h4 : ℕ) : ℚ) ≠ 0 := by exact_mod_cast hz
      have hTnn : (0 : ℚ) ≤ ((s1 + d2 + t3 + h4 : ℕ) : ℚ) := by positivity
      refine ⟨by positivity, by positivity, by positivity, by positivity, ?_⟩
      rw [div_add_div_same, div_add_div_same, div_add_div_same,
        div_eq_one_iff_eq hT0]
      push_cast
      ring
  · split_ifs with hLow hMed
    · norm_num
    · refine ⟨?_, ?_, ?_, ?_, by ring⟩ <;>
        · have hw0 : (0 : ℚ) ≤ (p.iso - 1 / 10) / (1 / 10) := by
            apply div_nonneg
            · norm_num at hLow
              linarith
            · norm_num
          have hw1 : (p.iso - 1 / 10) / (1 / 10) ≤ 1 := by
            rw [div_le_one (by norm_num)]
            norm_num at hMed
            linarith
          norm_num
          linarith [hw0, hw1]
    · refine ⟨?_, ?_, ?_, ?_, by ring⟩ <;>
        · have hw0 : (0 : ℚ) ≤ min 1 ((p.iso - 1 / 5) / (1 / 5)) := by
            apply le_min
            · norm_num
            · apply div_nonneg
              · norm_num at hMed
                linarith
              · norm_num
          have hw1 : min 1 ((p.iso - 1 / 5) / (1 / 5)) ≤ 1 := min_le_left _ _
          norm_num
          linarith [hw0, hw1]

/-- Assembly facts for `decompose_slash_line`: whenever the out mass is split
into two non-negative parts and the hit distribution is a genuine
distribution, both validation guards pass and the seven outcome
probabilities sum to exactly 1. -/
theorem decompose_assemble (ba obp : ℚ) (hd : HitDist) (pOutv pStv : ℚ)
    (hba : 0 ≤ ba) (hbo : ba ≤ obp) (hOut0 : 0 ≤ pOutv) (hSt0 : 0 ≤ pStv)
    (hsplit : pOutv + pStv = 1 - obp)
    (hd1 : 0 ≤ hd.h1B) (hd2 : 0 ≤ hd.h2B) (hd3 : 0 ≤ hd.h3B)
    (hd4 : 0 ≤ hd.hHR)
    (hds : hd.h1B + hd.h2B + hd.h3B + hd.hHR = 1) :
    validProbList (PAProbs.toList ⟨pOutv, pStv, obp - ba, ba * hd.h1B,
        ba * hd.h2B, ba * hd.h3B, ba * hd.hHR⟩) ∧
      validProbList hd.toList ∧
      (PAProbs.toList ⟨pOutv, pStv, obp - ba, ba * hd.h1B, ba * hd.h2B,
        ba * hd.h3B, ba * hd.hHR⟩).sum = 1 := by
  have hsum : (PAProbs.toList ⟨pOutv, pStv, obp - ba, ba * hd.h1B,
      ba * hd.h2B, ba * hd.h3B, ba * hd.hHR⟩).sum = 1 := by
    simp only [PAProbs.toList, List.sum_cons, List.sum_nil]
    linear_combination hsplit + ba * hds
  refine ⟨validProbList_of _ ?_ hsum, validProbList_of _ ?_ ?_, hsum⟩
  · intro x hx
    simp only [PAProbs.toList, List.mem_cons, List.not_mem_nil, or_false] at hx
    rcases hx with rfl | rfl | rfl | rfl | rfl | rfl | rfl
    · exact hOut0
    · exact hSt0
    · linarith
    · exact mul_nonneg hba hd1
    · exact mul_nonneg hba hd2
    · exact mul_nonneg hba hd3
    · exact mul_nonneg hba hd4
  · intro x hx
    simp only [HitDist.toList, List.mem_cons, List.not_mem_nil, or_false] at hx
    rcases hx with rfl | rfl | rfl | rfl
    · exact hd1
    · exact hd2
    · exact hd3
    · exact hd4
  · simp only [HitDist.toList, List.sum_cons, List.sum_nil]
    linarith

/-- C6.  For every slash line with `0 ≤ ba ≤ obp ≤ 1`, any optional player
record and any non-negative optional strikeout rate, `decompose_slash_line`
(at the shipped configuration) succeeds and returns outcome probabilities
with `WALK = obp − ba`; the hit mass `ba` split across the four hit types
proportionally to the hit-type distribution (which itself sums to 1); the
strikeout probability equal to the given rate — or the configured default
`0.220` when none is given — clamped so that any excess over the out mass
`1 − obp` is absorbed (STRIKEOUT then takes the whole out mass); the
ball-in-play OUT probability non-negative with `OUT + STRIKEOUT = 1 − obp`;
and the seven probabilities summing to exactly 1. -/
theorem decomposeSlashLine_spec (ba obp slg : ℚ) (player : Option Player)
    (kPct : Option ℚ) (hba : 0 ≤ ba) (hbo : ba ≤ obp) (ho1 : obp ≤ 1)
    (hk : ∀ kp ∈ kPct, 0 ≤ kp) :
    ∃ probs hd,
      decomposeSlashLine defaultConfig ba obp slg player kPct =
          .ok (probs, hd) ∧
        probs.walk = obp - ba ∧
        probs.single = ba * hd.h1B ∧ probs.double = ba * hd.h2B ∧
        probs.triple = ba * hd.h3B ∧ probs.hr = ba * hd.hHR ∧
        probs.strikeout =
          (if 1 - obp - kPct.getD defaultConfig.defaultKPct < 0 then 1 - obp
           else kPct.getD defaultConfig.defaultKPct) ∧
        probs.out + probs.strikeout = 1 - obp ∧ 0 ≤ probs.out ∧
        probs.toList.sum = 1 ∧
        hd.h1B + hd.h2B + hd.h3B + hd.hHR = 1 := by
  obtain ⟨q, hhd⟩ : ∃ q : Player, (match player with
      | some p => calculateHitDistribution defaultConfig p
      | none => calculateHitDistribution defaultConfig
          (tempPlayer ba obp slg (slg - ba))) =
      calculateHitDistribution defaultConfig q := by
    rcases player with - | p
    · exact ⟨tempPlayer ba obp slg (slg - ba), rfl⟩
    · exact ⟨p, rfl⟩
  obtain ⟨hv1, hv2, hv3, hv4, hvs⟩ := calculateHitDistribution_valid q
  rcases kPct with - | kp
  · simp only [decomposeSlashLine, hhd, Option.getD_none]
    by_cases hneg : 1 - obp - defaultConfig.defaultKPct < 0
    · simp only [if_pos hneg]
      obtain ⟨hval1, hval2, hsum⟩ := decompose_assemble ba obp
        (calculateHitDistribution defaultConfig q) 0 (1 - obp) hba hbo
        le_rfl (by linarith) (by ring) hv1 hv2 hv3 hv4 hvs
      rw [if_pos hval1, if_pos hval2]
      exact ⟨_, _, rfl, rfl, rfl, rfl, rfl, rfl, rfl, by ring, le_rfl, hsum,
        hvs⟩
    · simp only [if_neg hneg]
      obtain ⟨hval1, hval2, hsum⟩ := decompose_assemble ba obp
        (calculateHitDistribution defaultConfig q)
        (1 - obp - defaultConfig.defaultKPct) defaultConfig.defaultKPct hba
        hbo (not_lt.mp hneg) (by norm_num [defaultConfig]) (by ring) hv1 hv2
        hv3 hv4 hvs
      rw [if_pos hval1, if_pos hval2]
      exact ⟨_, _, rfl, rfl, rfl, rfl, rfl, rfl, rfl, by ring,
        not_lt.mp hneg, hsum, hvs⟩
  · have hkp : 0 ≤ kp := hk kp rfl
    simp only [decomposeSlashLine, hhd, Option.getD_some]
    by_cases hneg : 1 - obp - kp < 0
    · simp only [if_pos hneg]
      obtain ⟨hval1, hval2, hsum⟩ := decompose_assemble ba obp
        (calculateHitDistribution defaultConfig q) 0 (1 - obp) hba hbo
        le_rfl (by linarith) (by ring) hv1 hv2 hv3 hv4 hvs
      rw [if_pos hval1, if_pos hval2]
      exact ⟨_, _, rfl, rfl, rfl, rfl, rfl, rfl, rfl, by ring, le_rfl, hsum,
        hvs⟩
    · simp only [if_neg hneg]
      obtain ⟨hval1, hval2, hsum⟩ := decompose_assemble ba obp
        (calculateHitDistribution defaultConfig q) (1 - obp - kp) kp hba hbo
        (not_lt.mp hneg) hkp (by ring) hv1 hv2 hv3 hv4 hvs
      rw [if_pos hval1, if_pos hval2]
      exact ⟨_, _, rfl, rfl, rfl, rfl, rfl, rfl, rfl, by ring,
        not_lt.mp hneg, hsum, hvs⟩

/-- Witness: the spec's calibration example.  For ba = .280, obp = .350,
slg = .450 with no raw counts and no strikeout rate, the walk probability is
exactly 0.070, the strikeout probability is the configured league default,
and the seven outcome probabilities sum to 1. -/
theorem decomposeSlashLine_spec_witness :
    ∃ probs hd,
      decomposeSlashLine defaultConfig 0.280 0.350 0.450 none none =
          .ok (probs, hd) ∧
        probs.walk = 0.070 ∧ probs.strikeout = defaultConfig.defaultKPct ∧
        probs.toList.sum = 1 := by
  obtain ⟨probs, hd, hok, hwalk, -, -, -, -, hst, -, -, hsum, -⟩ :=
    decomposeSlashLine_spec 0.280 0.350 0.450 none none (by norm_num)
      (by norm_num) (by norm_num) (by simp)
  refine ⟨probs, hd, hok, ?_, ?_, hsum⟩
  · rw [hwalk]
    norm_num
  · rw [hst, Option.getD_none, if_neg (by norm_num [defaultConfig])]

/-- C7.  For every season-runs vector whose length matches the iteration
count `n ≥ 1`, `_calculate_win_probability` returns the proportion of
seasons at or above 4.5 runs per game together with a clamped Wilson-score
interval satisfying `0 ≤ ci_lower ≤ p_hat ≤ ci_upper ≤ 1`. -/
theorem calculateWinProbability_interval_valid (seasonRuns : List ℤ)
    (nGames nIterations : ℕ) (hn : 1 ≤ nIterations)
    (hlen : seasonRuns.length = nIterations) :
    0 ≤ (calculateWinProbability seasonRuns nGames nIterations).2.1 ∧
      (calculateWinProbability seasonRuns nGames nIterations).2.1 ≤
        ((calculateWinProbability seasonRuns nGames nIterations).1 : ℝ) ∧
      ((calculateWinProbability seasonRuns nGames nIterations).1 : ℝ) ≤
        (calculateWinProbability seasonRuns nGames nIterations).2.2 ∧
      (calculateWinProbability seasonRuns nGames nIterations).2.2 ≤ 1 := by
  have hnq : (0 : ℚ) < nIterations := by exact_mod_cast hn
  have hp0 : 0 ≤ pHat seasonRuns nGames nIterations := by
    unfold pHat
    positivity
  have hwins : winsAboveAvg seasonRuns nGames ≤ nIterations := by
    rw [← hlen]
    unfold winsAboveAvg
    exact List.length_filter_le _ _
  have hp1 : pHat seasonRuns nGames nIterations ≤ 1 := by
    unfold pHat
    rw [div_le_one hnq]
    exact_mod_cast hwins
  set p := pHat seasonRuns nGames nIterations with hpdef
  have hq0 : (0 : ℝ) ≤ (p : ℝ) := by exact_mod_cast hp0
  have hq1 : ((p : ℝ)) ≤ 1 := by exact_mod_cast hp1
  have hnr : (1 : ℝ) ≤ (nIterations : ℝ) := by exact_mod_cast hn
  have hnrpos : (0 : ℝ) < (nIterations : ℝ) := by linarith
  have hz : (0 : ℝ) < z975 := by norm_num [z975]
  have hD : (0 : ℝ) < 1 + z975 ^ 2 / (nIterations : ℝ) := by positivity
  have hpr : (0 : ℝ) ≤ (p : ℝ) * (1 - (p : ℝ)) :=
    mul_nonneg hq0 (by linarith)
  have hE0 : (0 : ℝ) ≤
      ((p : ℝ) * (1 - (p : ℝ)) + z975 ^ 2 / (4 * (nIterations : ℝ))) /
        (nIterations : ℝ) := by
    apply div_nonneg _ hnrpos.le
    have : (0 : ℝ) ≤ z975 ^ 2 / (4 * (nIterations : ℝ)) := by positivity
    linarith
  have hElow : (z975 / (2 * (nIterations : ℝ))) ^ 2 ≤
      ((p : ℝ) * (1 - (p : ℝ)) + z975 ^ 2 / (4 * (nIterations : ℝ))) /
        (nIterations : ℝ) := by
    rw [le_div_iff hnrpos]
    have heq : (z975 / (2 * (nIterations : ℝ))) ^ 2 * (nIterations : ℝ) =
        z975 ^ 2 / (4 * (nIterations : ℝ)) := by
      field_simp
      ring
    rw [heq]
    linarith
  have hsqrt : z975 / (2 * (nIterations : ℝ)) ≤
      Real.sqrt (((p : ℝ) * (1 - (p : ℝ)) +
        z975 ^ 2 / (4 * (nIterations : ℝ))) / (nIterations : ℝ)) := by
    rw [show z975 / (2 * (nIterations : ℝ)) =
        Real.sqrt ((z975 / (2 * (nIterations : ℝ))) ^ 2) from
      (Real.sqrt_sq (by positivity)).symm]
    exact Real.sqrt_le_sqrt hElow
  have hspread : z975 ^ 2 / (2 * (nIterations : ℝ)) ≤
      z975 * Real.sqrt (((p : ℝ) * (1 - (p : ℝ)) +
        z975 ^ 2 / (4 * (nIterations : ℝ))) / (nIterations : ℝ)) := by
    calc z975 ^ 2 / (2 * (nIterations : ℝ)) =
        z975 * (z975 / (2 * (nIterations : ℝ))) := by ring
      _ ≤ _ := mul_le_mul_of_nonneg_left hsqrt (le_of_lt hz)
  have key1 : wilsonCenter p nIterations - wilsonSpread p nIterations ≤
      (p : ℝ) := by
    unfold wilsonCenter wilsonSpread
    rw [div_sub_div_same, div_le_iff hD]
    have h1 : (0 : ℝ) ≤ (p : ℝ) * (z975 ^ 2 / (nIterations : ℝ)) := by
      positivity
    nlinarith [hspread]
  have key2 : (p : ℝ) ≤ wilsonCenter p nIterations +
      wilsonSpread p nIterations := by
    unfold wilsonCenter wilsonSpread
    rw [div_add_div_same, le_div_iff hD]
    have h1 : (p : ℝ) * (z975 ^ 2 / (nIterations : ℝ)) ≤
        1 * (z975 ^ 2 / (nIterations : ℝ)) :=
      mul_le_mul_of_nonneg_right hq1 (by positivity)
    have hne : (nIterations : ℝ) ≠ 0 := ne_of_gt hnrpos
    have h2 : z975 ^ 2 / (nIterations : ℝ) =
        2 * (z975 ^ 2 / (2 * (nIterations : ℝ))) := by
      field_simp
      ring
    have hexp : (p : ℝ) * (1 + z975 ^ 2 / (nIterations : ℝ)) =
        (p : ℝ) + (p : ℝ) * (z975 ^ 2 / (nIterations : ℝ)) := by ring
    linarith [h1, hspread, h2, hexp]
  refine ⟨le_max_left 0 _, ?_, ?_, min_le_left 1 _⟩
  · exact max_le hq0 key1
  · exact le_min hq1 key2

/-- Witness for C7: one simulated season of 800 runs over 162 games, one
iteration. -/
theorem calculateWinProbability_interval_valid_witness :
    (1 : ℕ) ≤ 1 ∧ ([(800 : ℤ)].length = 1) ∧
      (0 ≤ (calculateWinProbability [(800 : ℤ)] 162 1).2.1 ∧
        (calculateWinProbability [(800 : ℤ)] 162 1).2.1 ≤
          ((calculateWinProbability [(800 : ℤ)] 162 1).1 : ℝ) ∧
        ((calculateWinProbability [(800 : ℤ)] 162 1).1 : ℝ) ≤
          (calculateWinProbability [(800 : ℤ)] 162 1).2.2 ∧
        (calculateWinProbability [(800 : ℤ)] 162 1).2.2 ≤ 1) :=
  ⟨by decide, by decide,
    calculateWinProbability_interval_valid [(800 : ℤ)] 162 1
      (by decide) (by decide)⟩

/-- The iteration loop appends exactly one per-season record per iteration:
whatever it returns successfully has one entry per remaining iteration plus
the accumulator. -/
theorem runSimulationsAux_length (cfg : Config) (lineup : List Player)
    (d : ℕ → ℚ) (fuel nGames : ℕ) :
    ∀ (n k : ℕ) (acc l : List SeasonTotals),
      runSimulationsAux cfg lineup d fuel nGames n k acc = some (.ok l) →
      l.length = n + acc.length := by
  intro n
  induction n with
  | zero =>
    intro k acc l h
    simp only [runSimulationsAux, Option.some.injEq, Except.ok.injEq] at h
    subst h
    simp
  | succ n ih =>
    intro k acc l h
    simp only [runSimulationsAux] at h
    rcases hss : simulateSeason cfg lineup d fuel nGames k with _ | e
    · rw [hss] at h
      exact absurd h (by simp)
    · rcases e with e | ⟨tot, idx1, k1⟩
      · rw [hss] at h
        simp at h
      · rw [hss] at h
        have := ih k1 (tot :: acc) l h
        simp only [List.length_cons] at this
        omega

/-- C8 counterexample: the summary gives the full statistic set to runs
only - the hits section carries just mean, standard deviation and median
(no min, max, percentiles or ci_95), and left-on-base has no per-quantity
summary section at all. -/
theorem summary_lacks_full_stats_for_hits :
    summaryFields.lookup "hits" = some ["mean", "std", "median"] ∧
    "min" ∉ (summaryFields.lookup "hits").getD [] ∧
    "ci_95" ∉ (summaryFields.lookup "hits").getD [] ∧
    summaryFields.lookup "lob" = none := by
  decide

/-- C8 amended: `run_simulations`' summary carries the full statistic set
(mean, std, median, min, max, the five percentiles, and the empirical
2.5th/97.5th-percentile ci_95) for runs only; hits, walks, stolen bases,
caught stealing and sacrifice flies get mean, std and median only;
left-on-base appears only as per-game mean and std under lob_per_game;
while the raw per-season vectors of all seven tracked quantities are
retained in full - raw_data has one vector per quantity and the successful
iteration loop keeps exactly one per-season record per iteration. -/
theorem runSimulations_summary_structure :
    (("runs", fullStatFields) ∈ summaryFields ∧
      (∀ k ∈ ["hits", "walks", "stolen_bases", "caught_stealing",
          "sacrifice_flies"],
        summaryFields.lookup k = some ["mean", "std", "median"]) ∧
      summaryFields.lookup "lob" = none ∧
      ("lob_per_game", ["mean", "std"]) ∈ summaryFields ∧
      rawDataFields.length = trackedQuantityKeys.length ∧
      rawDataFields.Nodup) ∧
    ∀ (cfg : Config) (lineup : List Player) (d : ℕ → ℚ)
      (fuel nIterations nGames : ℕ) (l : List SeasonTotals),
      runSimulationsRaw cfg lineup d fuel nIterations nGames =
        some (.ok l) → l.length = nIterations := by
  constructor
  · decide
  · intro cfg lineup d fuel nIterations nGames l h
    have := runSimulationsAux_length cfg lineup d fuel nGames nIterations 0 [] l h
    simpa using this

/-- Witness for C8: a zero-iteration batch run returns the empty raw vector,
whose length is the iteration count. -/
theorem runSimulations_summary_structure_witness :
    runSimulationsRaw cfgPlain [] dLow 0 0 0 =
        some (.ok ([] : List SeasonTotals)) ∧
      ([] : List SeasonTotals).length = 0 :=
  ⟨rfl, runSimulations_summary_structure.2 cfgPlain [] dLow 0 0 0 [] rfl⟩

/-- C9.  Two batch runs with identical seed stream, identical lineup and
identical configuration produce identical raw per-season vectors: the
collected totals are a pure function of `(seed, lineup, config)`, since the
single `RandomState` stream is threaded sequentially through every plate
appearance of every iteration and no other source of randomness exists in
the model. -/
theorem runSimulationsRaw_deterministic (cfg1 cfg2 : Config)
    (lineup1 lineup2 : List Player) (d1 d2 : ℕ → ℚ)
    (fuel nIterations nGames : ℕ)
    (hcfg : cfg1 = cfg2) (hlu : lineup1 = lineup2)
    (hd : ∀ n, d1 n = d2 n) :
    runSimulationsRaw cfg1 lineup1 d1 fuel nIterations nGames =
      runSimulationsRaw cfg2 lineup2 d2 fuel nIterations nGames := by
  subst hcfg
  subst hlu
  have hfun : d1 = d2 := funext hd
  subst hfun
  rfl

/-- Witness for C9: two syntactically different but pointwise-equal seed
streams drive a one-iteration batch to the same raw vector. -/
theorem runSimulationsRaw_deterministic_witness :
    runSimulationsRaw cfgPlain [] dLow 1 1 1 =
      runSimulationsRaw cfgPlain [] (fun _ => 1 / 10) 1 1 1 :=
  runSimulationsRaw_deterministic cfgPlain cfgPlain [] [] dLow
    (fun _ => 1 / 10) 1 1 1 rfl rfl (fun _ => rfl)

/-- The cumulative walk only ever returns a name drawn from the list, or the
fall-through `'OUT'`. -/
theorem findOutcomeFromCum_mem (draw : ℚ) :
    ∀ (l : List (String × ℚ)) (acc : ℚ),
      findOutcomeFromCum draw acc l ∈ "OUT" :: l.map Prod.fst := by
  intro l
  induction l with
  | nil =>
    intro acc
    simp [findOutcomeFromCum]
  | cons hd tl ih =>
    intro acc
    obtain ⟨nm, p⟩ := hd
    by_cases hlt : draw < acc + p
    · simp [findOutcomeFromCum, if_pos hlt]
    · have := ih (acc + p)
      simp only [findOutcomeFromCum, if_neg hlt]
      simp only [List.map_cons, List.mem_cons] at this ⊢
      tauto

/-- When every listed probability is nonnegative and the draw is at least
the accumulated total mass, the cumulative walk falls through to `'OUT'`. -/
theorem findOutcomeFromCum_fallback (draw : ℚ) :
    ∀ (l : List (String × ℚ)) (acc : ℚ),
      (∀ x ∈ l, 0 ≤ x.2) → acc + (l.map Prod.snd).sum ≤ draw →
      findOutcomeFromCum draw acc l = "OUT" := by
  intro l
  induction l with
  | nil =>
    intro acc _ _
    rfl
  | cons hd tl ih =>
    intro acc hnn hle
    obtain ⟨nm, p⟩ := hd
    simp only [List.map_cons, List.sum_cons] at hle
    have h0 : ∀ x ∈ tl, 0 ≤ x.2 := fun x hx =>
      hnn x (List.mem_cons_of_mem _ hx)
    have hsum : 0 ≤ (tl.map Prod.snd).sum := by
      apply List.sum_nonneg
      intro q hq
      obtain ⟨x, hx, rfl⟩ := List.mem_map.mp hq
      exact h0 x hx
    have hnl : ¬ draw < acc + p := by
      push_neg
      linarith
    simp only [findOutcomeFromCum, if_neg hnl]
    exact ih (acc + p) h0 (by linarith)

/-- A player carrying a malformed probability dictionary: a negative WALK
probability, total cumulative mass zero. -/
def badP : Player :=
  { mkPlayer "malformed" with paProbs := some ⟨0, 1, -1, 0, 0, 0, 0⟩ }

/-- C10 counterexample: with a malformed dictionary (negative WALK entry)
the total cumulative mass is 0 and the draw 1/2 is not strictly below it,
yet `generate_outcome` returns `'STRIKEOUT'`, not the claimed `'OUT'`
fallback - the running cumulative prefix is not monotone, so the loop can
still fire after the total mass is passed. -/
theorem generateOutcome_fallback_fails_for_negative_probs :
    PAProbs.totalMass ⟨0, 1, -1, 0, 0, 0, 0⟩ ≤ constHalf 0 ∧
      badP.paProbs = some ⟨0, 1, -1, 0, 0, 0, 0⟩ ∧
      generateOutcome badP constHalf 0 = .ok ("STRIKEOUT", 1) := by
  refine ⟨by norm_num [PAProbs.totalMass, constHalf], rfl, ?_⟩
  norm_num [generateOutcome, badP, mkPlayer, findOutcomeFromCum,
    outcomeEnumeration, constHalf]

/-- C10 amended: `generate_outcome` raises exactly when the player's
`pa_probs` is `None`; whenever `pa_probs` is present it is total, consuming
one draw and returning one of the seven outcome strings; and the `'OUT'`
fall-through on a draw at or above the total cumulative mass is guaranteed
only when all seven probabilities are nonnegative (the sum still need not
be 1) - a negative entry can make the cumulative prefix non-monotone and
fire a later branch instead. -/
theorem generateOutcome_total_spec (p : Player) (d : ℕ → ℚ) (k : ℕ) :
    ((∃ e, generateOutcome p d k = .error e) ↔ p.paProbs = none) ∧
    ∀ pr, p.paProbs = some pr →
      ∃ o, generateOutcome p d k = .ok (o, k + 1) ∧
        o ∈ ["OUT", "STRIKEOUT", "WALK", "SINGLE", "DOUBLE", "TRIPLE",
          "HR"] ∧
        ((0 ≤ pr.out ∧ 0 ≤ pr.strikeout ∧ 0 ≤ pr.walk ∧ 0 ≤ pr.single ∧
            0 ≤ pr.double ∧ 0 ≤ pr.triple ∧ 0 ≤ pr.hr) →
          pr.totalMass ≤ d k → o = "OUT") := by
  constructor
  · constructor
    · rintro ⟨e, he⟩
      cases hpp : p.paProbs with
      | none => rfl
      | some pr =>
        rw [generateOutcome, hpp] at he
        exact absurd he (by simp)
    · intro hnone
      exact ⟨_, by rw [generateOutcome, hnone]⟩
  · intro pr hpr
    refine ⟨findOutcomeFromCum (d k) 0 (outcomeEnumeration pr),
      by rw [generateOutcome, hpr], ?_, ?_⟩
    · have := findOutcomeFromCum_mem (d k) (outcomeEnumeration pr) 0
      simp only [outcomeEnumeration, List.map_cons, List.map_nil,
        List.mem_cons, List.not_mem_nil, or_false] at this ⊢
      tauto
    · intro hnn hmass
      apply findOutcomeFromCum_fallback
      · obtain ⟨h1, h2, h3, h4, h5, h6, h7⟩ := hnn
        intro x hx
        simp only [outcomeEnumeration, List.mem_cons,
          List.not_mem_nil, or_false] at hx
        rcases hx with rfl | rfl | rfl | rfl | rfl | rfl | rfl <;>
          assumption
      · have hs : (0 : ℚ) +
            (((outcomeEnumeration pr).map Prod.snd).sum) = pr.totalMass := by
          simp only [outcomeEnumeration, List.map_cons, List.map_nil,
            List.sum_cons, List.sum_nil, PAProbs.totalMass]
          ring
        rw [hs]
        exact hmass

/-- Witness for C10: the all-OUT fixture player has calculated
probabilities, so the generator completes, consumes one draw and returns a
legal outcome string. -/
theorem generateOutcome_total_spec_witness :
    pOut.paProbs = some ⟨1, 0, 0, 0, 0, 0, 0⟩ ∧
      ∃ o, generateOutcome pOut dLow 0 = .ok (o, 1) ∧
        o ∈ ["OUT", "STRIKEOUT", "WALK", "SINGLE", "DOUBLE", "TRIPLE",
          "HR"] := by
  refine ⟨rfl, ?_⟩
  obtain ⟨o, hok, hmem, -⟩ :=
    (generateOutcome_total_spec pOut dLow 0).2 ⟨1, 0, 0, 0, 0, 0, 0⟩ rfl
  exact ⟨o, hok, hmem⟩
